import Mathlib

/-
Verification development for the parliament-mcp robust ingestion engine.

This file gives a shallow embedding, in Lean 4, of the parts of the code
that the checked claims are about:

  * the persistent work queue (robust_loader.py, class QueueManager);
  * the batch processor control flow (robust_loader.py, class Processor);
  * the record models and their chunking (parliament_mcp/models.py);
  * the embedding retry policy (parliament_mcp/openai_helpers.py);
  * the parliamentary-questions reassembly in the query handler
    (mcp_server/qdrant_query_handler.py);
  * the auditor (robust_loader.py, class AuditManager).

External effects (SQLite, HTTP, the embedding provider, the vector store,
the sha256 primitive, the sentence chunker) are modelled as explicit data
or function parameters; the logic of the repository itself is translated
directly from the source.
-/

/-! ## Queue model: robust_loader.py, class QueueManager

The SQLite table `queue` is modelled as a list of rows.  SQL UPDATE
statements act as maps over the rows; `INSERT OR IGNORE` with the primary
key `id` is an insertion guarded by a key-existence test.  Timestamps are
modelled as opaque natural numbers. -/

inductive Status where
  | pending
  | processing
  | completed
  | failed
deriving DecidableEq, Repr

structure QueueRow where
  id : String
  source_type : String
  date : String
  status : Status
  error_message : Option String
  attempts : Nat
  last_attempt : Option Nat
  metadata : Option String
deriving DecidableEq, Repr

/-- Row produced by the INSERT in QueueManager.add_item: schema defaults are
status PENDING, attempts 0, error_message and last_attempt NULL. -/
def newQueueRow (id source_type date : String) (metadata : Option String) : QueueRow :=
  { id := id
    source_type := source_type
    date := date
    status := Status.pending
    error_message := none
    attempts := 0
    last_attempt := none
    metadata := metadata }

/-- QueueManager.add_item: INSERT OR IGNORE keyed on the primary key `id`;
returns the new queue state and `cursor.rowcount > 0` (true iff inserted). -/
def add_item (q : List QueueRow) (id source_type date : String) (metadata : Option String) :
    List QueueRow × Bool :=
  if q.any (fun r => r.id == id) then (q, false)
  else (q ++ [newQueueRow id source_type date metadata], true)

/-- QueueManager.mark_failed: UPDATE queue SET status = FAILED,
error_message = err WHERE id = id. -/
def mark_failed (q : List QueueRow) (id : String) (err : String) : List QueueRow :=
  q.map (fun r =>
    if r.id = id then { r with status := Status.failed, error_message := some err } else r)

/-- QueueManager.mark_completed: for each id, UPDATE queue SET
status = COMPLETED, error_message = NULL WHERE id = id (executemany). -/
def mark_completed (q : List QueueRow) (ids : List String) : List QueueRow :=
  ids.foldl
    (fun acc id =>
      acc.map (fun r =>
        if r.id = id then { r with status := Status.completed, error_message := none } else r))
    q

/-- QueueManager.mark_processing: for each id, UPDATE queue SET
status = PROCESSING, last_attempt = now, attempts = attempts + 1. -/
def mark_processing (q : List QueueRow) (ids : List String) (now : Nat) : List QueueRow :=
  ids.foldl
    (fun acc id =>
      acc.map (fun r =>
        if r.id = id then
          { r with status := Status.processing, last_attempt := some now,
                   attempts := r.attempts + 1 }
        else r))
    q

/-- QueueManager.reset_processing: UPDATE queue SET status = PENDING
WHERE status = PROCESSING. -/
def reset_processing (q : List QueueRow) : List QueueRow :=
  q.map (fun r => if r.status = Status.processing then { r with status := Status.pending } else r)

/-- QueueManager.retry_failed: UPDATE queue SET status = PENDING,
error_message = NULL WHERE status = FAILED. -/
def retry_failed (q : List QueueRow) : List QueueRow :=
  q.map (fun r =>
    if r.status = Status.failed then
      { r with status := Status.pending, error_message := none }
    else r)

/-- Number of rows holding a given primary key. -/
def rowCount (q : List QueueRow) (id : String) : Nat :=
  (q.filter (fun r => r.id == id)).length

/-- The first row holding a given primary key, as a SELECT would see it. -/
def findRow (q : List QueueRow) (id : String) : Option QueueRow :=
  q.find? (fun r => r.id == id)

/-! ## Claims C5 and C7: queue operations -/

/-- Claim C5: add_item is idempotent on queue state.  For every queue state
and id not yet present, add_item inserts exactly one row and returns true;
a second call with the same id, whatever the other arguments, leaves the
queue unchanged, keeps exactly one row for that id, and returns false. -/
theorem add_item_insert_then_ignore
    (q : List QueueRow) (id st d : String) (m : Option String)
    (hfresh : ∀ r ∈ q, r.id ≠ id) :
    (add_item q id st d m).2 = true ∧
    (add_item q id st d m).1 = q ++ [newQueueRow id st d m] ∧
    rowCount (add_item q id st d m).1 id = 1 ∧
    ∀ st2 d2 m2,
      add_item (add_item q id st d m).1 id st2 d2 m2 = ((add_item q id st d m).1, false) ∧
      rowCount (add_item q id st d m).1 id = 1 := by
  have hany : q.any (fun r => r.id == id) = false := by
    simp only [List.any_eq_false, beq_iff_eq]
    intro r hr
    exact hfresh r hr
  have hstep : add_item q id st d m = (q ++ [newQueueRow id st d m], true) := by
    simp [add_item, hany]
  have hcount : rowCount (q ++ [newQueueRow id st d m]) id = 1 := by
    have hq : q.filter (fun r => r.id == id) = [] := by
      simp only [List.filter_eq_nil_iff, beq_iff_eq]
      intro r hr
      exact hfresh r hr
    simp [rowCount, List.filter_append, hq, newQueueRow]
  have hmem : (q ++ [newQueueRow id st d m]).any (fun r => r.id == id) = true := by
    simp [newQueueRow]
  refine ⟨by simp [hstep], by simp [hstep], by simp [hstep, hcount], ?_⟩
  intro st2 d2 m2
  have hsecond : add_item (q ++ [newQueueRow id st d m]) id st2 d2 m2 =
      (q ++ [newQueueRow id st d m], false) := by
    simp only [add_item, hmem, if_true]
  constructor
  · rw [hstep]
    exact hsecond
  · simp [hstep, hcount]

/-- Witness for claim C5 at a concrete queue: one insert, then an ignored
duplicate insert. -/
theorem add_item_insert_then_ignore_witness :
    (add_item [] "pq_1" "pq" "2024-07-18" none).2 = true ∧
    rowCount (add_item [] "pq_1" "pq" "2024-07-18" none).1 "pq_1" = 1 ∧
    add_item (add_item [] "pq_1" "pq" "2024-07-18" none).1 "pq_1" "hansard" "2024-07-19"
        (some "x") =
      ((add_item [] "pq_1" "pq" "2024-07-18" none).1, false) := by
  have h := add_item_insert_then_ignore [] "pq_1" "pq" "2024-07-18" none (by simp)
  exact ⟨h.1, h.2.2.1, (h.2.2.2 "hansard" "2024-07-19" (some "x")).1⟩

/-- Claim C7: reset_processing changes exactly the PROCESSING rows, setting
each to PENDING; rows in any other status are untouched, and every other
field of every row is unchanged. -/
theorem reset_processing_frame
    (q : List QueueRow) (i : Nat) (h : i < q.length) :
    ∃ h2 : i < (reset_processing q).length,
      ((q.get ⟨i, h⟩).status = Status.processing →
        (reset_processing q).get ⟨i, h2⟩ =
          { q.get ⟨i, h⟩ with status := Status.pending }) ∧
      ((q.get ⟨i, h⟩).status ≠ Status.processing →
        (reset_processing q).get ⟨i, h2⟩ = q.get ⟨i, h⟩) ∧
      ((reset_processing q).get ⟨i, h2⟩).id = (q.get ⟨i, h⟩).id ∧
      ((reset_processing q).get ⟨i, h2⟩).source_type = (q.get ⟨i, h⟩).source_type ∧
      ((reset_processing q).get ⟨i, h2⟩).date = (q.get ⟨i, h⟩).date ∧
      ((reset_processing q).get ⟨i, h2⟩).attempts = (q.get ⟨i, h⟩).attempts ∧
      ((reset_processing q).get ⟨i, h2⟩).last_attempt = (q.get ⟨i, h⟩).last_attempt ∧
      ((reset_processing q).get ⟨i, h2⟩).error_message = (q.get ⟨i, h⟩).error_message ∧
      ((reset_processing q).get ⟨i, h2⟩).metadata = (q.get ⟨i, h⟩).metadata := by
  have h2 : i < (reset_processing q).length := by
    simpa [reset_processing] using h
  refine ⟨h2, ?_⟩
  have hget : (reset_processing q).get ⟨i, h2⟩ =
      (if (q.get ⟨i, h⟩).status = Status.processing then
        { q.get ⟨i, h⟩ with status := Status.pending } else q.get ⟨i, h⟩) := by
    simp [reset_processing, List.get_eq_getElem, List.getElem_map]
  by_cases hs : (q.get ⟨i, h⟩).status = Status.processing
  · rw [hget, if_pos hs]
    exact ⟨fun _ => rfl, fun hns => absurd hs hns, rfl, rfl, rfl, rfl, rfl, rfl, rfl⟩
  · rw [hget, if_neg hs]
    exact ⟨fun hp => absurd hp hs, fun _ => rfl, rfl, rfl, rfl, rfl, rfl, rfl, rfl⟩

/-- Concrete queue used by the reset_processing witness: one PROCESSING row
and one COMPLETED row. -/
def resetWitnessQueue : List QueueRow :=
  [ { id := "hansard_A", source_type := "hansard", date := "2024-07-18",
      status := Status.processing, error_message := none, attempts := 2,
      last_attempt := some 10, metadata := some "m" },
    { id := "pq_2", source_type := "pq", date := "2024-07-18",
      status := Status.completed, error_message := none, attempts := 1,
      last_attempt := some 9, metadata := none } ]

/-- Witness for claim C7: on the concrete queue, the PROCESSING row moves to
PENDING with its other fields intact, and the COMPLETED row is untouched. -/
theorem reset_processing_frame_witness :
    (∃ h2 : 0 < (reset_processing resetWitnessQueue).length,
      (reset_processing resetWitnessQueue).get ⟨0, h2⟩ =
        { resetWitnessQueue.get ⟨0, by decide⟩ with status := Status.pending }) ∧
    (∃ h2 : 1 < (reset_processing resetWitnessQueue).length,
      (reset_processing resetWitnessQueue).get ⟨1, h2⟩ =
        resetWitnessQueue.get ⟨1, by decide⟩) := by
  constructor
  · obtain ⟨h2, hproc, _⟩ := reset_processing_frame resetWitnessQueue 0 (by decide)
    exact ⟨h2, hproc (by decide)⟩
  · obtain ⟨h2, _, hother, _⟩ := reset_processing_frame resetWitnessQueue 1 (by decide)
    exact ⟨h2, hother (by decide)⟩

/-! ## Processor model: robust_loader.py, class Processor

Processor.process_hansard_items and Processor.process_pq_items share one
control flow: iterate over the claimed items, hydrate each one (hansard:
json.loads of the metadata, Contribution.model_validate, get_debate_parents;
pq: HTTP fetch of the question, ParliamentaryQuestion.model_validate); on a
per-item exception mark that id FAILED with str(e) and continue; collect
the surviving documents and ids; then, if any document survived, run one
batch upsert: on success mark_completed all survivors, on exception mark
each survivor FAILED with "Batch upsert error: " plus the message.

The per-item hydration outcome and the batch upsert outcome are external
effects, passed in as data: `Except.error e` is a raised exception with
message `e`. -/

/-- One claimed queue item together with the outcome of its hydration. -/
abbrev ProcItem := String × Except String Unit

/-- The per-item loop of process_hansard_items / process_pq_items: returns
the queue state after the individual mark_failed calls, together with
processed_ids (ids whose hydration succeeded, in order). -/
def hydrationLoop (q : List QueueRow) (items : List ProcItem) :
    List QueueRow × List String :=
  items.foldl
    (fun acc item =>
      match item.2 with
      | Except.error e => (mark_failed acc.1 item.1 e, acc.2)
      | Except.ok _ => (acc.1, acc.2 ++ [item.1]))
    (q, [])

/-- The batch stage of process_hansard_items / process_pq_items: nothing is
upserted when no document survived hydration; otherwise the batch upsert
outcome decides between mark_completed on all survivors and per-survivor
mark_failed with the batch error message. -/
def process_source_items (q : List QueueRow) (items : List ProcItem)
    (upsertResult : Except String Unit) : List QueueRow :=
  let step := hydrationLoop q items
  if step.2 = [] then step.1
  else
    match upsertResult with
    | Except.ok _ => mark_completed step.1 step.2
    | Except.error e =>
        step.2.foldl (fun acc pid => mark_failed acc pid ("Batch upsert error: " ++ e)) step.1

/-- The (id, message) pairs of items whose hydration raised. -/
def errItems (items : List ProcItem) : List (String × String) :=
  items.filterMap (fun it =>
    match it.2 with
    | Except.error e => some (it.1, e)
    | Except.ok _ => none)

/-- The ids of items whose hydration succeeded (processed_ids). -/
def okIds (items : List ProcItem) : List String :=
  items.filterMap (fun it =>
    match it.2 with
    | Except.error _ => none
    | Except.ok _ => some it.1)

/-- Sequence of single-id mark_failed calls. -/
def failAll (q : List QueueRow) (pairs : List (String × String)) : List QueueRow :=
  pairs.foldl (fun acc p => mark_failed acc p.1 p.2) q

/-! ### Helper lemmas about findRow under the queue updates -/

theorem findRow_map_id_preserving (f : QueueRow → QueueRow)
    (hf : ∀ r, (f r).id = r.id) (q : List QueueRow) (x : String) :
    findRow (q.map f) x = (findRow q x).map f := by
  induction q with
  | nil => rfl
  | cons r rest ih =>
    simp only [findRow] at ih ⊢
    simp only [List.map_cons, List.find?_cons, hf r]
    cases hcase : (r.id == x)
    · simpa using ih
    · simp

theorem findRow_mem_isSome (q : List QueueRow) (x : String)
    (h : ∃ r ∈ q, r.id = x) : ∃ r0, findRow q x = some r0 ∧ r0.id = x := by
  obtain ⟨r, hr, hrx⟩ := h
  rcases hq : findRow q x with _ | r0
  · rw [findRow, List.find?_eq_none] at hq
    exact absurd (by simpa using hrx) (hq r hr)
  · refine ⟨r0, rfl, ?_⟩
    have := List.find?_some hq
    simpa using this

theorem findRow_mark_failed_ne (q : List QueueRow) (id e x : String) (hx : x ≠ id) :
    findRow (mark_failed q id e) x = findRow q x := by
  have hf : ∀ r : QueueRow,
      ((if r.id = id then { r with status := Status.failed, error_message := some e } else r)).id
        = r.id := by
    intro r
    by_cases h : r.id = id <;> simp [h]
  rw [mark_failed, findRow_map_id_preserving _ hf]
  rcases hq : findRow q x with _ | r0
  · rfl
  · have hid : r0.id = x := by simpa using List.find?_some hq
    have : ¬ r0.id = id := by rw [hid]; exact hx
    simp [this]

theorem findRow_mark_failed_eq (q : List QueueRow) (id e : String) :
    findRow (mark_failed q id e) id =
      (findRow q id).map
        (fun r => { r with status := Status.failed, error_message := some e }) := by
  have hf : ∀ r : QueueRow,
      ((if r.id = id then { r with status := Status.failed, error_message := some e } else r)).id
        = r.id := by
    intro r
    by_cases h : r.id = id <;> simp [h]
  rw [mark_failed, findRow_map_id_preserving _ hf]
  rcases hq : findRow q id with _ | r0
  · rfl
  · have hid : r0.id = id := by simpa using List.find?_some hq
    simp [hid]

theorem findRow_mark_completed_one_ne (q : List QueueRow) (id x : String) (hx : x ≠ id) :
    findRow (q.map (fun r =>
        if r.id = id then { r with status := Status.completed, error_message := none } else r)) x
      = findRow q x := by
  have hf : ∀ r : QueueRow,
      ((if r.id = id then { r with status := Status.completed, error_message := none } else r)).id
        = r.id := by
    intro r
    by_cases h : r.id = id <;> simp [h]
  rw [findRow_map_id_preserving _ hf]
  rcases hq : findRow q x with _ | r0
  · rfl
  · have hid : r0.id = x := by simpa using List.find?_some hq
    have : ¬ r0.id = id := by rw [hid]; exact hx
    simp [this]

theorem findRow_mark_completed_one_eq (q : List QueueRow) (id : String) :
    findRow (q.map (fun r =>
        if r.id = id then { r with status := Status.completed, error_message := none } else r)) id
      = (findRow q id).map
          (fun r => { r with status := Status.completed, error_message := none }) := by
  have hf : ∀ r : QueueRow,
      ((if r.id = id then { r with status := Status.completed, error_message := none } else r)).id
        = r.id := by
    intro r
    by_cases h : r.id = id <;> simp [h]
  rw [findRow_map_id_preserving _ hf]
  rcases hq : findRow q id with _ | r0
  · rfl
  · have hid : r0.id = id := by simpa using List.find?_some hq
    simp [hid]

theorem findRow_mark_completed_not_mem (q : List QueueRow) (ids : List String) (x : String)
    (hx : x ∉ ids) : findRow (mark_completed q ids) x = findRow q x := by
  induction ids generalizing q with
  | nil => rfl
  | cons id rest ih =>
    have hx1 : x ≠ id := fun h => hx (by simp [h])
    have hx2 : x ∉ rest := fun h => hx (by simp [h])
    rw [mark_completed, List.foldl_cons]
    rw [show ∀ q2 : List QueueRow, List.foldl _ q2 rest = mark_completed q2 rest
          from fun _ => rfl]
    rw [ih _ hx2, findRow_mark_completed_one_ne _ _ _ hx1]

theorem findRow_mark_completed_mem (q : List QueueRow) (ids : List String) (x : String)
    (hnd : ids.Nodup) (hx : x ∈ ids) :
    findRow (mark_completed q ids) x =
      (findRow q x).map
        (fun r => { r with status := Status.completed, error_message := none }) := by
  induction ids generalizing q with
  | nil => cases hx
  | cons id rest ih =>
    rw [mark_completed, List.foldl_cons]
    rw [show ∀ q2 : List QueueRow, List.foldl _ q2 rest = mark_completed q2 rest
          from fun _ => rfl]
    rcases List.mem_cons.mp hx with heq | hmem
    · subst heq
      have hnotin : x ∉ rest := (List.nodup_cons.mp hnd).1
      rw [findRow_mark_completed_not_mem _ _ _ hnotin, findRow_mark_completed_one_eq]
    · have hxne : x ≠ id := by
        intro h
        exact (List.nodup_cons.mp hnd).1 (h ▸ hmem)
      rw [ih _ (List.nodup_cons.mp hnd).2 hmem, findRow_mark_completed_one_ne _ _ _ hxne]

theorem findRow_failAll_not_mem (q : List QueueRow) (pairs : List (String × String)) (x : String)
    (hx : x ∉ pairs.map Prod.fst) : findRow (failAll q pairs) x = findRow q x := by
  induction pairs generalizing q with
  | nil => rfl
  | cons p rest ih =>
    have hx1 : x ≠ p.1 := fun h => hx (by simp [h])
    have hx2 : x ∉ rest.map Prod.fst := fun h => hx (by simp [h])
    rw [failAll, List.foldl_cons]
    rw [show ∀ q2 : List QueueRow, List.foldl _ q2 rest = failAll q2 rest from fun _ => rfl]
    rw [ih _ hx2, findRow_mark_failed_ne _ _ _ _ hx1]

theorem findRow_failAll_mem (q : List QueueRow) (pairs : List (String × String))
    (x e : String) (hnd : (pairs.map Prod.fst).Nodup) (hx : (x, e) ∈ pairs) :
    findRow (failAll q pairs) x =
      (findRow q x).map
        (fun r => { r with status := Status.failed, error_message := some e }) := by
  induction pairs generalizing q with
  | nil => cases hx
  | cons p rest ih =>
    rw [failAll, List.foldl_cons]
    rw [show ∀ q2 : List QueueRow, List.foldl _ q2 rest = failAll q2 rest from fun _ => rfl]
    have hnd2 : (p.1 :: rest.map Prod.fst).Nodup := by
      rw [List.map_cons] at hnd; exact hnd
    have hnd' := List.nodup_cons.mp hnd2
    rcases List.mem_cons.mp hx with heq | hmem
    · subst heq
      have hnotin : x ∉ rest.map Prod.fst := hnd'.1
      rw [findRow_failAll_not_mem _ _ _ hnotin]
      exact findRow_mark_failed_eq q x e
    · have hxne : x ≠ p.1 := by
        intro h
        exact hnd'.1 (h ▸ (List.mem_map.mpr ⟨(x, e), hmem, rfl⟩))
      rw [ih _ hnd'.2 hmem, findRow_mark_failed_ne _ _ _ _ hxne]

theorem hydrationLoop_aux (items : List ProcItem) :
    ∀ (q : List QueueRow) (acc : List String),
      items.foldl
        (fun acc2 item =>
          match item.2 with
          | Except.error e => (mark_failed acc2.1 item.1 e, acc2.2)
          | Except.ok _ => (acc2.1, acc2.2 ++ [item.1]))
        (q, acc)
      = (failAll q (errItems items), acc ++ okIds items) := by
  induction items with
  | nil => intro q acc; simp [errItems, okIds, failAll]
  | cons it rest ih =>
    intro q acc
    rcases hout : it.2 with e | u
    · rw [List.foldl_cons, hout]
      show List.foldl _ (mark_failed q it.1 e, acc) rest = _
      rw [ih]
      have herr : errItems (it :: rest) = (it.1, e) :: errItems rest := by
        simp [errItems, hout]
      have hok : okIds (it :: rest) = okIds rest := by
        simp [okIds, hout]
      rw [herr, hok]
      rfl
    · rw [List.foldl_cons, hout]
      show List.foldl _ (q, acc ++ [it.1]) rest = _
      rw [ih]
      have herr : errItems (it :: rest) = errItems rest := by
        simp [errItems, hout]
      have hok : okIds (it :: rest) = it.1 :: okIds rest := by
        simp [okIds, hout]
      rw [herr, hok]
      simp

theorem hydrationLoop_eq (q : List QueueRow) (items : List ProcItem) :
    hydrationLoop q items = (failAll q (errItems items), okIds items) := by
  rw [hydrationLoop, hydrationLoop_aux items q []]
  rfl

theorem mem_okIds_mem_fst (items : List ProcItem) (x : String) (h : x ∈ okIds items) :
    x ∈ items.map Prod.fst := by
  rw [okIds] at h
  obtain ⟨it, hm, hsome⟩ := List.mem_filterMap.mp h
  rcases hout : it.2 with e | u <;> rw [hout] at hsome
  · cases hsome
  · cases hsome
    exact List.mem_map.mpr ⟨it, hm, rfl⟩

theorem mem_errItems_mem_fst (items : List ProcItem) (x e : String)
    (h : (x, e) ∈ errItems items) : x ∈ items.map Prod.fst := by
  rw [errItems] at h
  obtain ⟨it, hm, hsome⟩ := List.mem_filterMap.mp h
  rcases hout : it.2 with e2 | u <;> rw [hout] at hsome
  · cases hsome
    exact List.mem_map.mpr ⟨it, hm, rfl⟩
  · cases hsome

theorem okIds_sublist (items : List ProcItem) :
    List.Sublist (okIds items) (items.map Prod.fst) := by
  induction items with
  | nil => simp [okIds]
  | cons it rest ih =>
    rcases hout : it.2 with e | u
    · have hok : okIds (it :: rest) = okIds rest := by simp [okIds, hout]
      rw [hok, List.map_cons]
      exact ih.cons it.1
    · have hok : okIds (it :: rest) = it.1 :: okIds rest := by simp [okIds, hout]
      rw [hok, List.map_cons]
      exact ih.cons₂ it.1

theorem errItems_fst_sublist (items : List ProcItem) :
    List.Sublist ((errItems items).map Prod.fst) (items.map Prod.fst) := by
  induction items with
  | nil => simp [errItems]
  | cons it rest ih =>
    rcases hout : it.2 with e | u
    · have herr : errItems (it :: rest) = (it.1, e) :: errItems rest := by
        simp [errItems, hout]
      rw [herr, List.map_cons, List.map_cons]
      exact ih.cons₂ it.1
    · have herr : errItems (it :: rest) = errItems rest := by simp [errItems, hout]
      rw [herr, List.map_cons]
      exact ih.cons it.1

theorem err_ok_disjoint (items : List ProcItem) (hnd : (items.map Prod.fst).Nodup)
    (x e : String) (hxe : (x, e) ∈ errItems items) : x ∉ okIds items := by
  induction items with
  | nil => simp [okIds]
  | cons it rest ih =>
    rw [List.map_cons, List.nodup_cons] at hnd
    rcases hout : it.2 with e2 | u
    · have herr : errItems (it :: rest) = (it.1, e2) :: errItems rest := by
        simp [errItems, hout]
      have hok : okIds (it :: rest) = okIds rest := by simp [okIds, hout]
      rw [herr] at hxe
      rw [hok]
      rcases List.mem_cons.mp hxe with heq | hmem
      · intro hcon
        have hmem2 : x ∈ rest.map Prod.fst := mem_okIds_mem_fst rest x hcon
        have hx1 : x = it.1 := (Prod.ext_iff.mp heq).1
        rw [hx1] at hmem2
        exact hnd.1 hmem2
      · exact ih hnd.2 hmem
    · have herr : errItems (it :: rest) = errItems rest := by simp [errItems, hout]
      have hok : okIds (it :: rest) = it.1 :: okIds rest := by simp [okIds, hout]
      rw [herr] at hxe
      rw [hok]
      intro hcon
      rcases List.mem_cons.mp hcon with heq | hmem
      · exact hnd.1 (heq ▸ mem_errItems_mem_fst rest x e hxe)
      · exact ih hnd.2 hxe hmem

theorem foldl_mark_failed_eq_failAll (ids : List String) (msg : String) :
    ∀ q : List QueueRow,
      ids.foldl (fun acc pid => mark_failed acc pid msg) q
        = failAll q (ids.map (fun pid => (pid, msg))) := by
  induction ids with
  | nil => intro q; rfl
  | cons id rest ih =>
    intro q
    rw [List.foldl_cons, List.map_cons]
    rw [show failAll q ((id, msg) :: rest.map (fun pid => (pid, msg)))
          = failAll (mark_failed q id msg) (rest.map (fun pid => (pid, msg))) from rfl]
    exact ih (mark_failed q id msg)

theorem process_source_items_eq (q : List QueueRow) (items : List ProcItem)
    (upr : Except String Unit) :
    process_source_items q items upr =
      if okIds items = [] then failAll q (errItems items)
      else
        match upr with
        | Except.ok _ => mark_completed (failAll q (errItems items)) (okIds items)
        | Except.error e =>
            (okIds items).foldl
              (fun acc pid => mark_failed acc pid ("Batch upsert error: " ++ e))
              (failAll q (errItems items)) := by
  show (let step := hydrationLoop q items
        if step.2 = [] then step.1
        else
          match upr with
          | Except.ok _ => mark_completed step.1 step.2
          | Except.error e =>
              step.2.foldl
                (fun acc pid => mark_failed acc pid ("Batch upsert error: " ++ e)) step.1)
      = _
  rw [hydrationLoop_eq]

/-- Claim C1: per-item hydration failures are isolated while batch-level
failures are collective.  For every claimed batch (items with pairwise
distinct ids, all present in the queue):
(a) an item whose hydration raised `e` ends FAILED with error `e`, whatever
    happened to the other items and to the batch upsert;
(b) an item whose hydration succeeded ends COMPLETED when the batch upsert
    succeeds;
(c) an item whose hydration succeeded ends FAILED with the message
    "Batch upsert error: " plus the batch error when the upsert raises;
(d) when the upsert raises, every claimed id of the batch ends FAILED. -/
theorem processor_batch_failure_isolation
    (q : List QueueRow) (items : List ProcItem) (upsertResult : Except String Unit)
    (hnd : (items.map Prod.fst).Nodup)
    (hpresent : ∀ it ∈ items, ∃ r ∈ q, r.id = it.1) :
    (∀ it ∈ items, ∀ e, it.2 = Except.error e →
      ∃ r0, findRow q it.1 = some r0 ∧
        findRow (process_source_items q items upsertResult) it.1 =
          some { r0 with status := Status.failed, error_message := some e }) ∧
    (∀ it ∈ items, it.2 = Except.ok () → upsertResult = Except.ok () →
      ∃ r0, findRow q it.1 = some r0 ∧
        findRow (process_source_items q items upsertResult) it.1 =
          some { r0 with status := Status.completed, error_message := none }) ∧
    (∀ it ∈ items, it.2 = Except.ok () → ∀ e, upsertResult = Except.error e →
      ∃ r0, findRow q it.1 = some r0 ∧
        findRow (process_source_items q items upsertResult) it.1 =
          some { r0 with status := Status.failed,
                         error_message := some ("Batch upsert error: " ++ e) }) ∧
    (∀ e, upsertResult = Except.error e → ∀ it ∈ items,
      ∃ r, findRow (process_source_items q items upsertResult) it.1 = some r ∧
        r.status = Status.failed) := by
  have herrNodup : ((errItems items).map Prod.fst).Nodup :=
    List.Nodup.sublist (errItems_fst_sublist items) hnd
  have hokNodup : (okIds items).Nodup :=
    List.Nodup.sublist (okIds_sublist items) hnd
  have hfinal : ∀ x : String, x ∉ okIds items →
      findRow (process_source_items q items upsertResult) x
        = findRow (failAll q (errItems items)) x := by
    intro x hx
    rw [process_source_items_eq]
    by_cases hok0 : okIds items = []
    · simp [hok0]
    · rcases upsertResult with e | u
      · rw [if_neg hok0]
        show findRow ((okIds items).foldl
            (fun acc pid => mark_failed acc pid ("Batch upsert error: " ++ e))
            (failAll q (errItems items))) x = findRow (failAll q (errItems items)) x
        rw [foldl_mark_failed_eq_failAll]
        apply findRow_failAll_not_mem
        intro hmem
        obtain ⟨pid, hpid, hpeq⟩ := List.mem_map.mp hmem
        obtain ⟨pid2, hpid2, hpeq2⟩ := List.mem_map.mp hpid
        exact hx (by rw [← hpeq, ← hpeq2]; exact hpid2)
      · rw [if_neg hok0]
        exact findRow_mark_completed_not_mem _ _ _ hx
  have ha : ∀ it ∈ items, ∀ e, it.2 = Except.error e →
      ∃ r0, findRow q it.1 = some r0 ∧
        findRow (process_source_items q items upsertResult) it.1 =
          some { r0 with status := Status.failed, error_message := some e } := by
    intro it hit e hite
    have hpair : (it.1, e) ∈ errItems items :=
      List.mem_filterMap.mpr ⟨it, hit, by rw [hite]⟩
    have hnotok : it.1 ∉ okIds items := err_ok_disjoint items hnd it.1 e hpair
    obtain ⟨r0, hr0, _⟩ := findRow_mem_isSome q it.1 (hpresent it hit)
    refine ⟨r0, hr0, ?_⟩
    rw [hfinal it.1 hnotok, findRow_failAll_mem q (errItems items) it.1 e herrNodup hpair, hr0]
    rfl
  have hq1ok : ∀ it ∈ items, it.2 = Except.ok () →
      it.1 ∈ okIds items ∧
        findRow (failAll q (errItems items)) it.1 = findRow q it.1 := by
    intro it hit hite
    have hxok : it.1 ∈ okIds items :=
      List.mem_filterMap.mpr ⟨it, hit, by rw [hite]⟩
    refine ⟨hxok, ?_⟩
    apply findRow_failAll_not_mem
    intro hmem
    obtain ⟨p, hp, hpeq⟩ := List.mem_map.mp hmem
    have := err_ok_disjoint items hnd p.1 p.2 hp
    rw [hpeq] at this
    exact this hxok
  have hb : ∀ it ∈ items, it.2 = Except.ok () → upsertResult = Except.ok () →
      ∃ r0, findRow q it.1 = some r0 ∧
        findRow (process_source_items q items upsertResult) it.1 =
          some { r0 with status := Status.completed, error_message := none } := by
    intro it hit hite hup
    obtain ⟨hxok, hkeep⟩ := hq1ok it hit hite
    obtain ⟨r0, hr0, _⟩ := findRow_mem_isSome q it.1 (hpresent it hit)
    refine ⟨r0, hr0, ?_⟩
    have hok0 : ¬ okIds items = [] := List.ne_nil_of_mem hxok
    rw [process_source_items_eq, hup, if_neg hok0]
    rw [findRow_mark_completed_mem _ _ _ hokNodup hxok, hkeep, hr0]
    rfl
  have hc : ∀ it ∈ items, it.2 = Except.ok () → ∀ e, upsertResult = Except.error e →
      ∃ r0, findRow q it.1 = some r0 ∧
        findRow (process_source_items q items upsertResult) it.1 =
          some { r0 with status := Status.failed,
                         error_message := some ("Batch upsert error: " ++ e) } := by
    intro it hit hite e hup
    obtain ⟨hxok, hkeep⟩ := hq1ok it hit hite
    obtain ⟨r0, hr0, _⟩ := findRow_mem_isSome q it.1 (hpresent it hit)
    refine ⟨r0, hr0, ?_⟩
    have hok0 : ¬ okIds items = [] := List.ne_nil_of_mem hxok
    rw [process_source_items_eq, hup, if_neg hok0]
    show findRow ((okIds items).foldl
        (fun acc pid => mark_failed acc pid ("Batch upsert error: " ++ e))
        (failAll q (errItems items))) it.1 = _
    rw [foldl_mark_failed_eq_failAll]
    have hpairmem : (it.1, "Batch upsert error: " ++ e) ∈
        (okIds items).map (fun pid => (pid, "Batch upsert error: " ++ e)) :=
      List.mem_map.mpr ⟨it.1, hxok, rfl⟩
    have hpairnd : (((okIds items).map
        (fun pid => (pid, "Batch upsert error: " ++ e))).map Prod.fst).Nodup := by
      rw [List.map_map]
      rw [show (Prod.fst ∘ fun pid => (pid, "Batch upsert error: " ++ e))
            = fun pid : String => pid from rfl]
      simpa using hokNodup
    rw [findRow_failAll_mem _ _ _ _ hpairnd hpairmem, hkeep, hr0]
    rfl
  refine ⟨ha, hb, hc, ?_⟩
  intro e hup it hit
  rcases hout : it.2 with e2 | u
  · obtain ⟨r0, _, hfin⟩ := ha it hit e2 hout
    exact ⟨_, hfin, rfl⟩
  · obtain ⟨r0, _, hfin⟩ := hc it hit (by rw [hout]) e hup
    exact ⟨_, hfin, rfl⟩

/-- Concrete rows for the processor witness. -/
def procRowA : QueueRow :=
  { id := "hansard_A", source_type := "hansard", date := "2024-07-18",
    status := Status.processing, error_message := none, attempts := 1,
    last_attempt := some 1, metadata := some "ma" }

def procRowB : QueueRow :=
  { id := "hansard_B", source_type := "hansard", date := "2024-07-18",
    status := Status.processing, error_message := none, attempts := 1,
    last_attempt := some 1, metadata := some "mb" }

def procRowC : QueueRow :=
  { id := "hansard_C", source_type := "hansard", date := "2024-07-18",
    status := Status.processing, error_message := none, attempts := 1,
    last_attempt := some 1, metadata := some "mc" }

def procWitnessQueue : List QueueRow := [procRowA, procRowB, procRowC]

/-- A batch where the first item fails hydration and the other two hydrate. -/
def procWitnessItems : List ProcItem :=
  [ ("hansard_A", Except.error "Missing item_data in metadata"),
    ("hansard_B", Except.ok ()),
    ("hansard_C", Except.ok ()) ]

/-- Witness for claim C1: with a failing batch upsert, the hydration-failed
item keeps its own error and a hydrated item gets the batch error. -/
theorem processor_batch_failure_isolation_witness :
    findRow (process_source_items procWitnessQueue procWitnessItems (Except.error "timeout"))
        "hansard_A" =
      some { procRowA with status := Status.failed,
                           error_message := some "Missing item_data in metadata" } ∧
    findRow (process_source_items procWitnessQueue procWitnessItems (Except.error "timeout"))
        "hansard_B" =
      some { procRowB with status := Status.failed,
                           error_message := some ("Batch upsert error: " ++ "timeout") } := by
  obtain ⟨ha, _, hc, _⟩ := processor_batch_failure_isolation procWitnessQueue procWitnessItems
      (Except.error "timeout") (by decide) (by decide)
  constructor
  · obtain ⟨r0, hr0, hfin⟩ := ha ("hansard_A", Except.error "Missing item_data in metadata")
      (List.mem_cons_self _ _) "Missing item_data in metadata" rfl
    have heq : r0 = procRowA := by
      rw [show findRow procWitnessQueue "hansard_A" = some procRowA from rfl] at hr0
      exact (Option.some.inj hr0).symm
    rw [heq] at hfin
    exact hfin
  · obtain ⟨r0, hr0, hfin⟩ := hc ("hansard_B", Except.ok ())
      (List.mem_cons_of_mem _ (List.mem_cons_self _ _)) rfl "timeout" rfl
    have heq : r0 = procRowB := by
      rw [show findRow procWitnessQueue "hansard_B" = some procRowB from rfl] at hr0
      exact (Option.some.inj hr0).symm
    rw [heq] at hfin
    exact hfin

/-! ## Record models: parliament_mcp/models.py

Pydantic records are modelled as structures; datetimes are carried as their
ISO-8601 serialisations (model_dump with json mode emits exactly those
strings, and the field_serializer on the PQ date fields emits isoformat or
None).  model_dump(mode="json") is modelled as an association list of
(key, JSON value) pairs with pairwise distinct keys, regular fields first
and computed fields last, as pydantic emits them.  The sha256 hexdigest
primitive (hashlib) and the sentence chunker (chonkie) are external
capabilities, passed in as function parameters. -/

inductive JVal where
  | null : JVal
  | str : String → JVal
  | int : Int → JVal
  | bool : Bool → JVal
  | arr : List JVal → JVal
  | obj : List (String × JVal) → JVal

/-- Python str() of an optional string: None renders as "None". -/
def pyStrOpt : Option String → String
  | none => "None"
  | some s => s

/-- Python str() of an optional integer: None renders as "None". -/
def pyStrOptInt : Option Int → String
  | none => "None"
  | some n => toString n

/-- Python `x or ""` on an optional string. -/
def pyOrEmpty : Option String → String
  | none => ""
  | some s => s

def jStrOpt : Option String → JVal
  | none => JVal.null
  | some s => JVal.str s

def jIntOpt : Option Int → JVal
  | none => JVal.null
  | some n => JVal.int n

def jBoolOpt : Option Bool → JVal
  | none => JVal.null
  | some b => JVal.bool b

/-- models.DebateParent. -/
structure DebateParent where
  Id : Int
  Title : String
  ParentId : Option Int
  ExternalId : String

def DebateParent.model_dump (d : DebateParent) : List (String × JVal) :=
  [("Id", JVal.int d.Id), ("Title", JVal.str d.Title),
   ("ParentId", jIntOpt d.ParentId), ("ExternalId", JVal.str d.ExternalId)]

def jParentsOpt : Option (List DebateParent) → JVal
  | none => JVal.null
  | some l => JVal.arr (l.map (fun d => JVal.obj d.model_dump))

/-- models.Contribution.  created_at comes from the QdrantDocument base
class (default datetime.now), carried here as its ISO serialisation. -/
structure Contribution where
  created_at : String
  MemberName : Option String := none
  MemberId : Option Int := none
  AttributedTo : Option String := none
  ItemId : Option Int := none
  ContributionExtId : Option String := none
  ContributionText : Option String := none
  ContributionTextFull : Option String := none
  HRSTag : Option String := none
  HansardSection : Option String := none
  DebateSection : Option String := none
  DebateSectionId : Option Int := none
  DebateSectionExtId : Option String := none
  SittingDate : Option String := none
  Section : Option String := none
  House : Option String := none
  OrderInDebateSection : Option Int := none
  DebateSectionOrder : Option Int := none
  Rank : Option Int := none
  Timecode : Option String := none
  debate_parents : Option (List DebateParent) := none

/-- Contribution.debate_url.  The %Y-%m-%d format spec on the ISO datetime
keeps the date part, modelled as the first ten characters.  (CPython would
raise on a None SittingDate here; the claims never evaluate that case, so
the model renders "None" instead.) -/
def Contribution.debate_url (c : Contribution) : String :=
  "https://hansard.parliament.uk/" ++ pyStrOpt c.House ++ "/" ++
    (pyStrOpt c.SittingDate).take 10 ++ "/debates/" ++
    pyStrOpt c.DebateSectionExtId ++ "/link"

/-- Contribution.contribution_url: None when ContributionExtId is None. -/
def Contribution.contribution_url (c : Contribution) : Option String :=
  match c.ContributionExtId with
  | none => none
  | some ext => some (c.debate_url ++ "#contribution-" ++ ext)

/-- Contribution.document_uri, with hashlib.sha256(...).hexdigest() as an
external primitive `sha256hex`.  The hashed text is the f-string
"{DebateSectionExtId}_{ContributionText}_{OrderInDebateSection}". -/
def Contribution.document_uri (sha256hex : String → String) (c : Contribution) : String :=
  match c.ContributionExtId with
  | none =>
      "debate_" ++ pyStrOpt c.DebateSectionExtId ++ "_contrib_" ++
        sha256hex (pyStrOpt c.DebateSectionExtId ++ "_" ++ pyStrOpt c.ContributionText ++
          "_" ++ pyStrOptInt c.OrderInDebateSection)
  | some ext => "debate_" ++ pyStrOpt c.DebateSectionExtId ++ "_contrib_" ++ ext

/-- Contribution.model_dump(mode="json"): regular fields in declaration
order (created_at first, from the base class), then the computed fields
debate_url, contribution_url, document_uri. -/
def Contribution.model_dump (sha256hex : String → String) (c : Contribution) :
    List (String × JVal) :=
  [("created_at", JVal.str c.created_at),
   ("MemberName", jStrOpt c.MemberName),
   ("MemberId", jIntOpt c.MemberId),
   ("AttributedTo", jStrOpt c.AttributedTo),
   ("ItemId", jIntOpt c.ItemId),
   ("ContributionExtId", jStrOpt c.ContributionExtId),
   ("ContributionText", jStrOpt c.ContributionText),
   ("ContributionTextFull", jStrOpt c.ContributionTextFull),
   ("HRSTag", jStrOpt c.HRSTag),
   ("HansardSection", jStrOpt c.HansardSection),
   ("DebateSection", jStrOpt c.DebateSection),
   ("DebateSectionId", jIntOpt c.DebateSectionId),
   ("DebateSectionExtId", jStrOpt c.DebateSectionExtId),
   ("SittingDate", jStrOpt c.SittingDate),
   ("Section", jStrOpt c.Section),
   ("House", jStrOpt c.House),
   ("OrderInDebateSection", jIntOpt c.OrderInDebateSection),
   ("DebateSectionOrder", jIntOpt c.DebateSectionOrder),
   ("Rank", jIntOpt c.Rank),
   ("Timecode", jStrOpt c.Timecode),
   ("debate_parents", jParentsOpt c.debate_parents),
   ("debate_url", JVal.str c.debate_url),
   ("contribution_url", jStrOpt c.contribution_url),
   ("document_uri", JVal.str (c.document_uri sha256hex))]

/-- Python `del d[k]` on the association-list dict. -/
def pyDictDel (d : List (String × JVal)) (k : String) : List (String × JVal) :=
  d.filter (fun p => p.1 != k)

/-- Python `d[k]` / `d.get(k)` on the association-list dict. -/
def dictGet (d : List (String × JVal)) (k : String) : Option JVal :=
  (d.find? (fun p => p.1 == k)).map Prod.snd

/-- Contribution.to_chunks: chunk ContributionTextFull (or ""), remove the
two text fields from the dump, and emit one payload per chunk with text,
chunk_type "contribution" and chunk_id "{document_uri}_chunk_{i}". -/
def Contribution.to_chunks (sha256hex : String → String) (chunker : String → List String)
    (c : Contribution) : List (List (String × JVal)) :=
  let chunks := chunker (pyOrEmpty c.ContributionTextFull)
  let document := pyDictDel (pyDictDel (c.model_dump sha256hex) "ContributionTextFull")
    "ContributionText"
  chunks.enum.map (fun pr =>
    document ++
      [("text", JVal.str pr.2),
       ("chunk_type", JVal.str "contribution"),
       ("chunk_id", JVal.str (c.document_uri sha256hex ++ "_chunk_" ++ toString pr.1))])

/-- models.Member. -/
structure Member where
  id : Int
  listAs : Option String := none
  name : Option String := none
  party : Option String := none
  partyColour : Option String := none
  partyAbbreviation : Option String := none
  memberFrom : Option String := none
  thumbnailUrl : Option String := none

def Member.model_dump (m : Member) : List (String × JVal) :=
  [("id", JVal.int m.id), ("listAs", jStrOpt m.listAs), ("name", jStrOpt m.name),
   ("party", jStrOpt m.party), ("partyColour", jStrOpt m.partyColour),
   ("partyAbbreviation", jStrOpt m.partyAbbreviation),
   ("memberFrom", jStrOpt m.memberFrom), ("thumbnailUrl", jStrOpt m.thumbnailUrl)]

def jMemberOpt : Option Member → JVal
  | none => JVal.null
  | some m => JVal.obj m.model_dump

/-- models.Attachment. -/
structure Attachment where
  url : Option String := none
  title : Option String := none
  fileType : Option String := none
  fileSizeBytes : Option Int := none

def Attachment.model_dump (a : Attachment) : List (String × JVal) :=
  [("url", jStrOpt a.url), ("title", jStrOpt a.title),
   ("fileType", jStrOpt a.fileType), ("fileSizeBytes", jIntOpt a.fileSizeBytes)]

/-- models.GroupedQuestionDate (dateTabled carried as its ISO string). -/
structure GroupedQuestionDate where
  questionUin : Option String := none
  dateTabled : String

def GroupedQuestionDate.model_dump (g : GroupedQuestionDate) : List (String × JVal) :=
  [("questionUin", jStrOpt g.questionUin), ("dateTabled", JVal.str g.dateTabled)]

/-- models.ParliamentaryQuestion (datetimes as ISO serialisations). -/
structure ParliamentaryQuestion where
  id : Int
  askingMemberId : Int
  askingMember : Option Member := none
  house : String
  memberHasInterest : Bool
  dateTabled : String
  dateForAnswer : Option String := none
  uin : Option String := none
  questionText : Option String := none
  answeringBodyId : Int
  answeringBodyName : Option String := none
  isWithdrawn : Bool
  isNamedDay : Bool
  groupedQuestions : List String := []
  answerIsHolding : Option Bool := none
  answerIsCorrection : Option Bool := none
  answeringMemberId : Option Int := none
  answeringMember : Option Member := none
  correctingMemberId : Option Int := none
  correctingMember : Option Member := none
  dateAnswered : Option String := none
  answerText : Option String := none
  originalAnswerText : Option String := none
  comparableAnswerText : Option String := none
  dateAnswerCorrected : Option String := none
  dateHoldingAnswer : Option String := none
  attachmentCount : Int
  heading : Option String := none
  attachments : List Attachment := []
  groupedQuestionsDates : List GroupedQuestionDate := []
  created_at : String

/-- ParliamentaryQuestion.document_uri: "pq_{id}". -/
def ParliamentaryQuestion.document_uri (p : ParliamentaryQuestion) : String :=
  "pq_" ++ toString p.id

/-- ParliamentaryQuestion.model_dump(mode="json"): regular fields in
declaration order, then the computed field document_uri. -/
def ParliamentaryQuestion.model_dump (p : ParliamentaryQuestion) : List (String × JVal) :=
  [("id", JVal.int p.id),
   ("askingMemberId", JVal.int p.askingMemberId),
   ("askingMember", jMemberOpt p.askingMember),
   ("house", JVal.str p.house),
   ("memberHasInterest", JVal.bool p.memberHasInterest),
   ("dateTabled", JVal.str p.dateTabled),
   ("dateForAnswer", jStrOpt p.dateForAnswer),
   ("uin", jStrOpt p.uin),
   ("questionText", jStrOpt p.questionText),
   ("answeringBodyId", JVal.int p.answeringBodyId),
   ("answeringBodyName", jStrOpt p.answeringBodyName),
   ("isWithdrawn", JVal.bool p.isWithdrawn),
   ("isNamedDay", JVal.bool p.isNamedDay),
   ("groupedQuestions", JVal.arr (p.groupedQuestions.map JVal.str)),
   ("answerIsHolding", jBoolOpt p.answerIsHolding),
   ("answerIsCorrection", jBoolOpt p.answerIsCorrection),
   ("answeringMemberId", jIntOpt p.answeringMemberId),
   ("answeringMember", jMemberOpt p.answeringMember),
   ("correctingMemberId", jIntOpt p.correctingMemberId),
   ("correctingMember", jMemberOpt p.correctingMember),
   ("dateAnswered", jStrOpt p.dateAnswered),
   ("answerText", jStrOpt p.answerText),
   ("originalAnswerText", jStrOpt p.originalAnswerText),
   ("comparableAnswerText", jStrOpt p.comparableAnswerText),
   ("dateAnswerCorrected", jStrOpt p.dateAnswerCorrected),
   ("dateHoldingAnswer", jStrOpt p.dateHoldingAnswer),
   ("attachmentCount", JVal.int p.attachmentCount),
   ("heading", jStrOpt p.heading),
   ("attachments", JVal.arr (p.attachments.map (fun a => JVal.obj a.model_dump))),
   ("groupedQuestionsDates",
     JVal.arr (p.groupedQuestionsDates.map (fun g => JVal.obj g.model_dump))),
   ("created_at", JVal.str p.created_at),
   ("document_uri", JVal.str p.document_uri)]

/-- ParliamentaryQuestion.to_chunks: chunk questionText (or "") then
answerText (or ""), remove the two text fields from the dump, and emit
question payloads with indices starting at 0 followed by answer payloads
with indices starting at len(question_chunks). -/
def ParliamentaryQuestion.to_chunks (chunker : String → List String)
    (p : ParliamentaryQuestion) : List (List (String × JVal)) :=
  let question_chunks := chunker (pyOrEmpty p.questionText)
  let answer_chunks := chunker (pyOrEmpty p.answerText)
  let document := pyDictDel (pyDictDel p.model_dump "questionText") "answerText"
  question_chunks.enum.map (fun pr =>
    document ++
      [("text", JVal.str pr.2),
       ("chunk_type", JVal.str "question"),
       ("chunk_id", JVal.str (p.document_uri ++ "_chunk_" ++ toString pr.1))])
  ++ answer_chunks.enum.map (fun pr =>
    document ++
      [("text", JVal.str pr.2),
       ("chunk_type", JVal.str "answer"),
       ("chunk_id",
         JVal.str (p.document_uri ++ "_chunk_" ++ toString (question_chunks.length + pr.1)))])

/-! ### Dictionary lemmas -/

theorem dictGet_append_of_some (d e : List (String × JVal)) (k : String) (v : JVal)
    (h : dictGet d k = some v) : dictGet (d ++ e) k = some v := by
  rcases hd : d.find? (fun p => p.1 == k) with _ | pr
  · rw [dictGet, hd] at h; cases h
  · rw [dictGet, List.find?_append, hd]
    rw [dictGet, hd] at h
    exact h

theorem dictGet_append_of_none (d e : List (String × JVal)) (k : String)
    (h : dictGet d k = none) : dictGet (d ++ e) k = dictGet e k := by
  rcases hd : d.find? (fun p => p.1 == k) with _ | pr
  · rw [dictGet, List.find?_append, hd]
    rfl
  · rw [dictGet, hd] at h; cases h

theorem find?_filter_of_imp (p q : (String × JVal) → Bool) (l : List (String × JVal))
    (h : ∀ a, p a = true → q a = true) : (l.filter q).find? p = l.find? p := by
  induction l with
  | nil => rfl
  | cons a rest ih =>
    by_cases hq : q a = true
    · rw [List.filter_cons_of_pos hq, List.find?_cons, List.find?_cons]
      cases hp : p a
      · exact ih
      · rfl
    · have hp : p a = false := by
        cases hpa : p a
        · rfl
        · exact absurd (h a hpa) hq
      rw [List.filter_cons_of_neg (by simpa using hq), List.find?_cons, hp]
      exact ih

theorem dictGet_pyDictDel_ne (d : List (String × JVal)) (kdel k : String) (h : k ≠ kdel) :
    dictGet (pyDictDel d kdel) k = dictGet d k := by
  rw [dictGet, dictGet, pyDictDel, find?_filter_of_imp]
  intro a ha
  have : a.1 = k := by simpa using ha
  simp [bne, this, h]

theorem dictGet_pyDictDel_self (d : List (String × JVal)) (kdel : String) :
    dictGet (pyDictDel d kdel) kdel = none := by
  rw [dictGet, pyDictDel]
  rw [List.find?_eq_none.mpr]
  · rfl
  · intro a ha
    have : a.1 ≠ kdel := by simpa [bne] using (List.mem_filter.mp ha).2
    simpa using this

theorem dictGet_three_tail_ne (tv ctv civ : JVal) (k : String)
    (h1 : k ≠ "text") (h2 : k ≠ "chunk_type") (h3 : k ≠ "chunk_id") :
    dictGet [("text", tv), ("chunk_type", ctv), ("chunk_id", civ)] k = none := by
  have e1 : ("text" == k) = false := by
    simp [beq_iff_eq]; exact fun hh => h1 hh.symm
  have e2 : ("chunk_type" == k) = false := by
    simp [beq_iff_eq]; exact fun hh => h2 hh.symm
  have e3 : ("chunk_id" == k) = false := by
    simp [beq_iff_eq]; exact fun hh => h3 hh.symm
  rw [dictGet, List.find?_cons]
  simp only [e1]
  rw [List.find?_cons]
  simp only [e2]
  rw [List.find?_cons]
  simp only [e3]
  rfl

/-! ## Claim C2: document_uri determinism -/

/-- Claim C2: document_uri is a deterministic function of the record.  With
ContributionExtId present it is "debate_{DebateSectionExtId}_contrib_{ext}";
with it missing it is "debate_{DebateSectionExtId}_contrib_{h}" where h is
the sha256 hexdigest of the underscore-joined concatenation of
DebateSectionExtId, ContributionText and OrderInDebateSection; a PQ uri is
"pq_{id}". -/
theorem document_uri_deterministic (sha256hex : String → String)
    (c : Contribution) (p : ParliamentaryQuestion) :
    (∀ ext, c.ContributionExtId = some ext →
      c.document_uri sha256hex =
        "debate_" ++ pyStrOpt c.DebateSectionExtId ++ "_contrib_" ++ ext) ∧
    (c.ContributionExtId = none →
      c.document_uri sha256hex =
        "debate_" ++ pyStrOpt c.DebateSectionExtId ++ "_contrib_" ++
          sha256hex (pyStrOpt c.DebateSectionExtId ++ "_" ++ pyStrOpt c.ContributionText ++
            "_" ++ pyStrOptInt c.OrderInDebateSection)) ∧
    p.document_uri = "pq_" ++ toString p.id := by
  refine ⟨?_, ?_, rfl⟩
  · intro ext h
    rw [Contribution.document_uri, h]
  · intro h
    rw [Contribution.document_uri, h]

/-- Concrete contribution with an external id, for the C2 witness. -/
def c2WithExt : Contribution :=
  { created_at := "2024-07-18T10:00:00", ContributionExtId := some "E1",
    DebateSectionExtId := some "D1", ContributionText := some "Hello",
    OrderInDebateSection := some 3 }

/-- Concrete contribution without an external id, for the C2 witness. -/
def c2NoExt : Contribution :=
  { created_at := "2024-07-18T10:00:00", ContributionExtId := none,
    DebateSectionExtId := some "D1", ContributionText := some "Hello",
    OrderInDebateSection := some 3 }

/-- Concrete parliamentary question shared by the model witnesses. -/
def pqSample : ParliamentaryQuestion :=
  { id := 42, askingMemberId := 1, house := "Commons", memberHasInterest := false,
    dateTabled := "2024-07-18T00:00:00", answeringBodyId := 9,
    isWithdrawn := false, isNamedDay := false, attachmentCount := 0,
    questionText := some "Q text", answerText := some "A text",
    created_at := "2024-07-19T08:00:00" }

/-- Witness for claim C2 with a tagging stand-in for the sha256 primitive:
the no-ext uri exposes exactly the hashed text "D1_Hello_3". -/
theorem document_uri_deterministic_witness :
    c2WithExt.document_uri (fun s => "sha" ++ s) = "debate_D1_contrib_E1" ∧
    c2NoExt.document_uri (fun s => "sha" ++ s) = "debate_D1_contrib_shaD1_Hello_3" ∧
    pqSample.document_uri = "pq_42" := by
  obtain ⟨h1, h2, h3⟩ := document_uri_deterministic (fun s => "sha" ++ s) c2WithExt pqSample
  refine ⟨h1 "E1" rfl, ?_, h3⟩
  obtain ⟨_, h2b, _⟩ := document_uri_deterministic (fun s => "sha" ++ s) c2NoExt pqSample
  exact h2b rfl

/-! ## Claims C3 and C4: chunk structure and payloads -/

theorem contribution_dump_key_facts (sha256hex : String → String) (c : Contribution) :
    dictGet (c.model_dump sha256hex) "text" = none ∧
    dictGet (c.model_dump sha256hex) "chunk_type" = none ∧
    dictGet (c.model_dump sha256hex) "chunk_id" = none ∧
    dictGet (c.model_dump sha256hex) "created_at" = some (JVal.str c.created_at) := by
  refine ⟨rfl, rfl, rfl, rfl⟩

theorem pq_dump_key_facts (p : ParliamentaryQuestion) :
    dictGet p.model_dump "text" = none ∧
    dictGet p.model_dump "chunk_type" = none ∧
    dictGet p.model_dump "chunk_id" = none ∧
    dictGet p.model_dump "created_at" = some (JVal.str p.created_at) := by
  refine ⟨rfl, rfl, rfl, rfl⟩

/-- The document dict built by Contribution.to_chunks (dump minus the two
text fields). -/
def Contribution.chunkDocument (sha256hex : String → String) (c : Contribution) :
    List (String × JVal) :=
  pyDictDel (pyDictDel (c.model_dump sha256hex) "ContributionTextFull") "ContributionText"

/-- The document dict built by ParliamentaryQuestion.to_chunks. -/
def ParliamentaryQuestion.chunkDocument (p : ParliamentaryQuestion) :
    List (String × JVal) :=
  pyDictDel (pyDictDel p.model_dump "questionText") "answerText"

theorem contribution_document_key_none (sha256hex : String → String) (c : Contribution)
    (k : String) (h1 : k ≠ "ContributionText") (h2 : k ≠ "ContributionTextFull")
    (hd : dictGet (c.model_dump sha256hex) k = none) :
    dictGet (c.chunkDocument sha256hex) k = none := by
  rw [Contribution.chunkDocument, dictGet_pyDictDel_ne _ _ _ h1,
    dictGet_pyDictDel_ne _ _ _ h2]
  exact hd

theorem pq_document_key_none (p : ParliamentaryQuestion)
    (k : String) (h1 : k ≠ "answerText") (h2 : k ≠ "questionText")
    (hd : dictGet p.model_dump k = none) :
    dictGet p.chunkDocument k = none := by
  rw [ParliamentaryQuestion.chunkDocument, dictGet_pyDictDel_ne _ _ _ h1,
    dictGet_pyDictDel_ne _ _ _ h2]
  exact hd

theorem payload_tail_lookup (doc : List (String × JVal)) (tv ctv civ : JVal)
    (ht : dictGet doc "text" = none) (hct : dictGet doc "chunk_type" = none)
    (hci : dictGet doc "chunk_id" = none) :
    dictGet (doc ++ [("text", tv), ("chunk_type", ctv), ("chunk_id", civ)]) "text" = some tv ∧
    dictGet (doc ++ [("text", tv), ("chunk_type", ctv), ("chunk_id", civ)]) "chunk_type"
      = some ctv ∧
    dictGet (doc ++ [("text", tv), ("chunk_type", ctv), ("chunk_id", civ)]) "chunk_id"
      = some civ := by
  refine ⟨?_, ?_, ?_⟩
  · rw [dictGet_append_of_none _ _ _ ht]; rfl
  · rw [dictGet_append_of_none _ _ _ hct]; rfl
  · rw [dictGet_append_of_none _ _ _ hci]; rfl

theorem contribution_chunk_get (sha256hex : String → String) (chunker : String → List String)
    (c : Contribution) (i : Nat) (h : i < (c.to_chunks sha256hex chunker).length) :
    ∃ hi : i < (chunker (pyOrEmpty c.ContributionTextFull)).length,
      (c.to_chunks sha256hex chunker).get ⟨i, h⟩ =
        c.chunkDocument sha256hex ++
          [("text", JVal.str ((chunker (pyOrEmpty c.ContributionTextFull)).get ⟨i, hi⟩)),
           ("chunk_type", JVal.str "contribution"),
           ("chunk_id", JVal.str (c.document_uri sha256hex ++ "_chunk_" ++ toString i))] := by
  have hi : i < (chunker (pyOrEmpty c.ContributionTextFull)).length := by
    have := h
    rw [Contribution.to_chunks] at this
    simpa [List.enum_length] using this
  refine ⟨hi, ?_⟩
  show (((chunker (pyOrEmpty c.ContributionTextFull)).enum.map _).get ⟨i, h⟩) = _
  rw [List.get_eq_getElem, List.getElem_map, List.getElem_enum]
  rfl

theorem pq_to_chunks_length (chunker : String → List String) (p : ParliamentaryQuestion) :
    (p.to_chunks chunker).length =
      (chunker (pyOrEmpty p.questionText)).length +
        (chunker (pyOrEmpty p.answerText)).length := by
  rw [ParliamentaryQuestion.to_chunks]
  simp [List.enum_length]

theorem pq_chunk_get (chunker : String → List String) (p : ParliamentaryQuestion)
    (i : Nat) (h : i < (p.to_chunks chunker).length) :
    (i < (chunker (pyOrEmpty p.questionText)).length →
      ∃ hi : i < (chunker (pyOrEmpty p.questionText)).length,
        (p.to_chunks chunker).get ⟨i, h⟩ =
          p.chunkDocument ++
            [("text", JVal.str ((chunker (pyOrEmpty p.questionText)).get ⟨i, hi⟩)),
             ("chunk_type", JVal.str "question"),
             ("chunk_id", JVal.str (p.document_uri ++ "_chunk_" ++ toString i))]) ∧
    ((chunker (pyOrEmpty p.questionText)).length ≤ i →
      ∃ hi : i - (chunker (pyOrEmpty p.questionText)).length <
          (chunker (pyOrEmpty p.answerText)).length,
        (p.to_chunks chunker).get ⟨i, h⟩ =
          p.chunkDocument ++
            [("text", JVal.str ((chunker (pyOrEmpty p.answerText)).get
                ⟨i - (chunker (pyOrEmpty p.questionText)).length, hi⟩)),
             ("chunk_type", JVal.str "answer"),
             ("chunk_id", JVal.str (p.document_uri ++ "_chunk_" ++ toString i))]) := by
  have hlen := pq_to_chunks_length chunker p
  constructor
  · intro hq
    refine ⟨hq, ?_⟩
    show ((((chunker (pyOrEmpty p.questionText)).enum.map _) ++
           ((chunker (pyOrEmpty p.answerText)).enum.map _)).get ⟨i, h⟩) = _
    rw [List.get_eq_getElem]
    rw [List.getElem_append_left (by simpa [List.enum_length] using hq)]
    rw [List.getElem_map, List.getElem_enum]
    rfl
  · intro hq
    have h2 := h
    rw [hlen] at h2
    have hi : i - (chunker (pyOrEmpty p.questionText)).length <
        (chunker (pyOrEmpty p.answerText)).length := by omega
    refine ⟨hi, ?_⟩
    show ((((chunker (pyOrEmpty p.questionText)).enum.map _) ++
           ((chunker (pyOrEmpty p.answerText)).enum.map _)).get ⟨i, h⟩) = _
    rw [List.get_eq_getElem]
    rw [List.getElem_append_right (by simpa [List.enum_length] using hq)]
    have harith : (chunker (pyOrEmpty p.questionText)).length +
        (i - ((chunker (pyOrEmpty p.questionText)).enum.map
          (fun pr => p.chunkDocument ++
            [("text", JVal.str pr.2), ("chunk_type", JVal.str "question"),
             ("chunk_id", JVal.str (p.document_uri ++ "_chunk_" ++ toString pr.1))])).length)
        = i := by
      simp only [List.length_map, List.enum_length]
      omega
    simp only [List.length_map, List.enum_length]
    rw [List.getElem_map, List.getElem_enum]
    have harith2 : (chunker (pyOrEmpty p.questionText)).length +
        (i - (chunker (pyOrEmpty p.questionText)).length) = i := by omega
    simp only [harith2]
    rfl

/-- Claim C3: every chunk id is "{document_uri}_chunk_{k}" where k is the
chunk position (zero-based, hence unique within the document); a PQ emits
its Q question chunks at indices [0, Q) with chunk_type "question" followed
by its A answer chunks at indices [Q, Q+A) with chunk_type "answer", so
every question chunk precedes every answer chunk; contribution chunks all
have chunk_type "contribution". -/
theorem chunk_id_and_type_indexing (sha256hex : String → String)
    (chunker : String → List String) (c : Contribution) (p : ParliamentaryQuestion) :
    ((c.to_chunks sha256hex chunker).length =
        (chunker (pyOrEmpty c.ContributionTextFull)).length ∧
      ∀ i, ∀ h : i < (c.to_chunks sha256hex chunker).length,
        dictGet ((c.to_chunks sha256hex chunker).get ⟨i, h⟩) "chunk_id" =
          some (JVal.str (c.document_uri sha256hex ++ "_chunk_" ++ toString i)) ∧
        dictGet ((c.to_chunks sha256hex chunker).get ⟨i, h⟩) "chunk_type" =
          some (JVal.str "contribution")) ∧
    ((p.to_chunks chunker).length =
        (chunker (pyOrEmpty p.questionText)).length +
          (chunker (pyOrEmpty p.answerText)).length ∧
      ∀ i, ∀ h : i < (p.to_chunks chunker).length,
        dictGet ((p.to_chunks chunker).get ⟨i, h⟩) "chunk_id" =
          some (JVal.str (p.document_uri ++ "_chunk_" ++ toString i)) ∧
        dictGet ((p.to_chunks chunker).get ⟨i, h⟩) "chunk_type" =
          some (JVal.str
            (if i < (chunker (pyOrEmpty p.questionText)).length then "question"
             else "answer"))) := by
  constructor
  · constructor
    · rw [Contribution.to_chunks]
      simp [List.enum_length]
    · intro i h
      obtain ⟨hi, hget⟩ := contribution_chunk_get sha256hex chunker c i h
      rw [hget]
      obtain ⟨hdt, hdct, hdci, _⟩ := contribution_dump_key_facts sha256hex c
      have ht := contribution_document_key_none sha256hex c "text"
        (by decide) (by decide) hdt
      have hct := contribution_document_key_none sha256hex c "chunk_type"
        (by decide) (by decide) hdct
      have hci := contribution_document_key_none sha256hex c "chunk_id"
        (by decide) (by decide) hdci
      obtain ⟨_, h2, h3⟩ := payload_tail_lookup _ _ _ _ ht hct hci
      exact ⟨h3, h2⟩
  · constructor
    · exact pq_to_chunks_length chunker p
    · intro i h
      obtain ⟨hdt, hdct, hdci, _⟩ := pq_dump_key_facts p
      have ht := pq_document_key_none p "text" (by decide) (by decide) hdt
      have hct := pq_document_key_none p "chunk_type" (by decide) (by decide) hdct
      have hci := pq_document_key_none p "chunk_id" (by decide) (by decide) hdci
      by_cases hq : i < (chunker (pyOrEmpty p.questionText)).length
      · obtain ⟨hi, hget⟩ := (pq_chunk_get chunker p i h).1 hq
        rw [hget, if_pos hq]
        obtain ⟨_, h2, h3⟩ := payload_tail_lookup _ _ _ _ ht hct hci
        exact ⟨h3, h2⟩
      · obtain ⟨hi, hget⟩ := (pq_chunk_get chunker p i h).2 (Nat.le_of_not_lt hq)
        rw [hget, if_neg hq]
        obtain ⟨_, h2, h3⟩ := payload_tail_lookup _ _ _ _ ht hct hci
        exact ⟨h3, h2⟩

/-- Witness for claim C3 on pqSample with the one-chunk-per-text chunker:
index 0 is the question chunk, index 1 the answer chunk, with ids
"pq_42_chunk_0" and "pq_42_chunk_1". -/
theorem chunk_id_and_type_indexing_witness :
    (pqSample.to_chunks (fun s => [s])).length = 2 ∧
    dictGet ((pqSample.to_chunks (fun s => [s])).get ⟨0, by decide⟩) "chunk_id" =
      some (JVal.str "pq_42_chunk_0") ∧
    dictGet ((pqSample.to_chunks (fun s => [s])).get ⟨0, by decide⟩) "chunk_type" =
      some (JVal.str "question") ∧
    dictGet ((pqSample.to_chunks (fun s => [s])).get ⟨1, by decide⟩) "chunk_id" =
      some (JVal.str "pq_42_chunk_1") ∧
    dictGet ((pqSample.to_chunks (fun s => [s])).get ⟨1, by decide⟩) "chunk_type" =
      some (JVal.str "answer") := by
  obtain ⟨-, hlen, hall⟩ :=
    chunk_id_and_type_indexing (fun s => s) (fun s => [s]) c2WithExt pqSample
  exact ⟨by rw [hlen]; rfl, (hall 0 (by decide)).1, (hall 0 (by decide)).2,
    (hall 1 (by decide)).1, (hall 1 (by decide)).2⟩

theorem payload_lookup_frame (dump doc : List (String × JVal)) (tv ctv civ : JVal) (k : String)
    (hdoc : dictGet doc k = dictGet dump k)
    (h3 : k ≠ "text") (h4 : k ≠ "chunk_type") (h5 : k ≠ "chunk_id") :
    dictGet (doc ++ [("text", tv), ("chunk_type", ctv), ("chunk_id", civ)]) k
      = dictGet dump k := by
  rcases hd : dictGet doc k with _ | v
  · rw [dictGet_append_of_none _ _ _ hd, dictGet_three_tail_ne _ _ _ _ h3 h4 h5, ← hdoc, hd]
  · rw [dictGet_append_of_some _ _ _ _ hd, ← hdoc, hd]

theorem contribution_document_get (sha256hex : String → String) (c : Contribution)
    (k : String) (h1 : k ≠ "ContributionText") (h2 : k ≠ "ContributionTextFull") :
    dictGet (c.chunkDocument sha256hex) k = dictGet (c.model_dump sha256hex) k := by
  rw [Contribution.chunkDocument, dictGet_pyDictDel_ne _ _ _ h1,
    dictGet_pyDictDel_ne _ _ _ h2]

theorem pq_document_get (p : ParliamentaryQuestion)
    (k : String) (h1 : k ≠ "answerText") (h2 : k ≠ "questionText") :
    dictGet p.chunkDocument k = dictGet p.model_dump k := by
  rw [ParliamentaryQuestion.chunkDocument, dictGet_pyDictDel_ne _ _ _ h1,
    dictGet_pyDictDel_ne _ _ _ h2]

theorem contribution_document_removed (sha256hex : String → String) (c : Contribution) :
    dictGet (c.chunkDocument sha256hex) "ContributionText" = none ∧
    dictGet (c.chunkDocument sha256hex) "ContributionTextFull" = none := by
  constructor
  · exact dictGet_pyDictDel_self _ _
  · rw [Contribution.chunkDocument, dictGet_pyDictDel_ne _ _ _ (by decide)]
    exact dictGet_pyDictDel_self _ _

theorem pq_document_removed (p : ParliamentaryQuestion) :
    dictGet p.chunkDocument "questionText" = none ∧
    dictGet p.chunkDocument "answerText" = none := by
  constructor
  · rw [ParliamentaryQuestion.chunkDocument, dictGet_pyDictDel_ne _ _ _ (by decide)]
    exact dictGet_pyDictDel_self _ _
  · exact dictGet_pyDictDel_self _ _

/-- Claim C4: every chunk payload is the record dump minus the embedded
text fields (ContributionText and ContributionTextFull for a Contribution,
questionText and answerText for a PQ) plus text (the chunk text),
chunk_type, chunk_id; created_at is present with the record value, and
every other dump key is carried through unchanged. -/
theorem chunk_payload_contents (sha256hex : String → String)
    (chunker : String → List String) (c : Contribution) (p : ParliamentaryQuestion) :
    (∀ i, ∀ h : i < (c.to_chunks sha256hex chunker).length,
      dictGet ((c.to_chunks sha256hex chunker).get ⟨i, h⟩) "ContributionText" = none ∧
      dictGet ((c.to_chunks sha256hex chunker).get ⟨i, h⟩) "ContributionTextFull" = none ∧
      (∃ hi : i < (chunker (pyOrEmpty c.ContributionTextFull)).length,
        dictGet ((c.to_chunks sha256hex chunker).get ⟨i, h⟩) "text" =
          some (JVal.str ((chunker (pyOrEmpty c.ContributionTextFull)).get ⟨i, hi⟩))) ∧
      dictGet ((c.to_chunks sha256hex chunker).get ⟨i, h⟩) "created_at" =
        some (JVal.str c.created_at) ∧
      (∀ k, k ≠ "ContributionText" → k ≠ "ContributionTextFull" → k ≠ "text" →
        k ≠ "chunk_type" → k ≠ "chunk_id" →
        dictGet ((c.to_chunks sha256hex chunker).get ⟨i, h⟩) k =
          dictGet (c.model_dump sha256hex) k)) ∧
    (∀ i, ∀ h : i < (p.to_chunks chunker).length,
      dictGet ((p.to_chunks chunker).get ⟨i, h⟩) "questionText" = none ∧
      dictGet ((p.to_chunks chunker).get ⟨i, h⟩) "answerText" = none ∧
      (i < (chunker (pyOrEmpty p.questionText)).length →
        ∃ hi : i < (chunker (pyOrEmpty p.questionText)).length,
          dictGet ((p.to_chunks chunker).get ⟨i, h⟩) "text" =
            some (JVal.str ((chunker (pyOrEmpty p.questionText)).get ⟨i, hi⟩))) ∧
      ((chunker (pyOrEmpty p.questionText)).length ≤ i →
        ∃ hi : i - (chunker (pyOrEmpty p.questionText)).length <
            (chunker (pyOrEmpty p.answerText)).length,
          dictGet ((p.to_chunks chunker).get ⟨i, h⟩) "text" =
            some (JVal.str ((chunker (pyOrEmpty p.answerText)).get
              ⟨i - (chunker (pyOrEmpty p.questionText)).length, hi⟩))) ∧
      dictGet ((p.to_chunks chunker).get ⟨i, h⟩) "created_at" =
        some (JVal.str p.created_at) ∧
      (∀ k, k ≠ "questionText" → k ≠ "answerText" → k ≠ "text" →
        k ≠ "chunk_type" → k ≠ "chunk_id" →
        dictGet ((p.to_chunks chunker).get ⟨i, h⟩) k = dictGet p.model_dump k)) := by
  constructor
  · intro i h
    obtain ⟨hi, hget⟩ := contribution_chunk_get sha256hex chunker c i h
    rw [hget]
    obtain ⟨hrem1, hrem2⟩ := contribution_document_removed sha256hex c
    obtain ⟨hdt, hdct, hdci, hdca⟩ := contribution_dump_key_facts sha256hex c
    have ht := contribution_document_key_none sha256hex c "text" (by decide) (by decide) hdt
    have hct := contribution_document_key_none sha256hex c "chunk_type"
      (by decide) (by decide) hdct
    have hci := contribution_document_key_none sha256hex c "chunk_id"
      (by decide) (by decide) hdci
    refine ⟨?_, ?_, ⟨hi, (payload_tail_lookup _ _ _ _ ht hct hci).1⟩, ?_, ?_⟩
    · rw [dictGet_append_of_none _ _ _ hrem1]
      exact dictGet_three_tail_ne _ _ _ _ (by decide) (by decide) (by decide)
    · rw [dictGet_append_of_none _ _ _ hrem2]
      exact dictGet_three_tail_ne _ _ _ _ (by decide) (by decide) (by decide)
    · apply dictGet_append_of_some
      rw [contribution_document_get sha256hex c "created_at" (by decide) (by decide)]
      exact hdca
    · intro k hk1 hk2 hk3 hk4 hk5
      exact payload_lookup_frame _ _ _ _ _ k
        (contribution_document_get sha256hex c k hk1 hk2) hk3 hk4 hk5
  · intro i h
    obtain ⟨hrem1, hrem2⟩ := pq_document_removed p
    obtain ⟨hdt, hdct, hdci, hdca⟩ := pq_dump_key_facts p
    have ht := pq_document_key_none p "text" (by decide) (by decide) hdt
    have hct := pq_document_key_none p "chunk_type" (by decide) (by decide) hdct
    have hci := pq_document_key_none p "chunk_id" (by decide) (by decide) hdci
    by_cases hq : i < (chunker (pyOrEmpty p.questionText)).length
    · obtain ⟨hi, hget⟩ := (pq_chunk_get chunker p i h).1 hq
      rw [hget]
      refine ⟨?_, ?_, fun _ => ⟨hi, (payload_tail_lookup _ _ _ _ ht hct hci).1⟩,
        fun hcon => absurd hq (Nat.not_lt.mpr hcon), ?_, ?_⟩
      · rw [dictGet_append_of_none _ _ _ hrem1]
        exact dictGet_three_tail_ne _ _ _ _ (by decide) (by decide) (by decide)
      · rw [dictGet_append_of_none _ _ _ hrem2]
        exact dictGet_three_tail_ne _ _ _ _ (by decide) (by decide) (by decide)
      · apply dictGet_append_of_some
        rw [pq_document_get p "created_at" (by decide) (by decide)]
        exact hdca
      · intro k hk1 hk2 hk3 hk4 hk5
        exact payload_lookup_frame _ _ _ _ _ k
          (pq_document_get p k hk2 hk1) hk3 hk4 hk5
    · obtain ⟨hi, hget⟩ := (pq_chunk_get chunker p i h).2 (Nat.le_of_not_lt hq)
      rw [hget]
      refine ⟨?_, ?_, fun hcon => absurd hcon hq,
        fun _ => ⟨hi, (payload_tail_lookup _ _ _ _ ht hct hci).1⟩, ?_, ?_⟩
      · rw [dictGet_append_of_none _ _ _ hrem1]
        exact dictGet_three_tail_ne _ _ _ _ (by decide) (by decide) (by decide)
      · rw [dictGet_append_of_none _ _ _ hrem2]
        exact dictGet_three_tail_ne _ _ _ _ (by decide) (by decide) (by decide)
      · apply dictGet_append_of_some
        rw [pq_document_get p "created_at" (by decide) (by decide)]
        exact hdca
      · intro k hk1 hk2 hk3 hk4 hk5
        exact payload_lookup_frame _ _ _ _ _ k
          (pq_document_get p k hk2 hk1) hk3 hk4 hk5

/-- Witness for claim C4 on pqSample with the one-chunk-per-text chunker:
the answer payload at index 1 drops the text fields, carries the answer
text, the created_at value and an untouched dump key (uin). -/
theorem chunk_payload_contents_witness :
    dictGet ((pqSample.to_chunks (fun s => [s])).get ⟨1, by decide⟩) "questionText" = none ∧
    dictGet ((pqSample.to_chunks (fun s => [s])).get ⟨1, by decide⟩) "answerText" = none ∧
    dictGet ((pqSample.to_chunks (fun s => [s])).get ⟨1, by decide⟩) "text" =
      some (JVal.str "A text") ∧
    dictGet ((pqSample.to_chunks (fun s => [s])).get ⟨1, by decide⟩) "created_at" =
      some (JVal.str "2024-07-19T08:00:00") ∧
    dictGet ((pqSample.to_chunks (fun s => [s])).get ⟨1, by decide⟩) "house" =
      dictGet pqSample.model_dump "house" := by
  obtain ⟨-, hall⟩ :=
    chunk_payload_contents (fun s => s) (fun s => [s]) c2WithExt pqSample
  obtain ⟨h1, h2, -, h4, h5, h6⟩ := hall 1 (by decide)
  obtain ⟨hi1, htext⟩ := h4 (by decide)
  exact ⟨h1, h2, htext, h5,
    h6 "house" (by decide) (by decide) (by decide) (by decide) (by decide)⟩

/-! ## Embedding retry policy: parliament_mcp/openai_helpers.py

wait_azure_rate_limit subclasses tenacity's wait_exponential; _embed_chunk
is decorated with tenacity retry(stop=stop_after_attempt(5),
wait=wait_azure_rate_limit(multiplier=1, min=4, max=60)).  The regex search
re.search("retry after (\\d+) seconds", str(exc), re.IGNORECASE) is
translated literally: scan left to right, at each position match the
literal "retry after ", then one or more digits (greedy), then the literal
" seconds"; case folding is ASCII.  The upstream call is a parameter
mapping the attempt number to its outcome. -/

/-- ASCII lower-casing of one character (re.IGNORECASE on this pattern
only needs ASCII letters). -/
def charLowerAscii (ch : Char) : Char :=
  if 'A' ≤ ch ∧ ch ≤ 'Z' then Char.ofNat (ch.toNat + 32) else ch

/-- Does the second list start with the first one? -/
def listStartsWith : List Char → List Char → Bool
  | [], _ => true
  | _ :: _, [] => false
  | p :: ps, ch :: cs => (p == ch) && listStartsWith ps cs

/-- Numeric value of a digit run, as int(match.group(1)) reads it. -/
def digitsVal (ds : List Char) : Nat :=
  ds.foldl (fun a ch => a * 10 + (ch.toNat - 48)) 0

/-- Try to match "retry after (\\d+) seconds" at the head of an
already-lower-cased character list. -/
def matchRetryAt (cs : List Char) : Option Nat :=
  if listStartsWith "retry after ".data cs then
    let rest := cs.drop "retry after ".data.length
    let ds := rest.takeWhile (fun ch => ch.isDigit)
    if ds.isEmpty then none
    else if listStartsWith " seconds".data (rest.drop ds.length) then some (digitsVal ds)
    else none
  else none

def findRetryAfterAux : List Char → Option Nat
  | [] => none
  | ch :: cs =>
    match matchRetryAt (ch :: cs) with
    | some n => some n
    | none => findRetryAfterAux cs

/-- re.search(r"retry after (\\d+) seconds", s, re.IGNORECASE): value of
the first match, if any. -/
def findRetryAfter (s : String) : Option Nat :=
  findRetryAfterAux (s.data.map charLowerAscii)

/-- Modelled from the spec: tenacity wait_exponential(multiplier, min, max)
is the external retry library; its wait is the exponential
multiplier * 2^(attempt_number - 1) clamped into [min, max]. -/
def wait_exponential_call (multiplier expMin expMax : Nat) (attempt_number : Nat) : Nat :=
  max expMin (min (multiplier * 2 ^ (attempt_number - 1)) expMax)

/-- The retry outcome seen by the wait strategy: whether the raised
exception is a RateLimitError, and its str(). -/
structure RetryOutcome where
  isRateLimit : Bool
  message : String

structure RetryState where
  attempt_number : Nat
  outcome : RetryOutcome

/-- wait_azure_rate_limit.__call__: on a RateLimitError whose message
matches "retry after X seconds", wait X + 5; otherwise defer to
wait_exponential(multiplier=1, min=4, max=60). -/
def wait_azure_rate_limit_call (st : RetryState) : Nat :=
  if st.outcome.isRateLimit then
    match findRetryAfter st.outcome.message with
    | some x => x + 5
    | none => wait_exponential_call 1 4 60 st.attempt_number
  else wait_exponential_call 1 4 60 st.attempt_number

/-- tenacity retry with stop_after_attempt: `fuel` remaining attempts,
`n` the current attempt number; the last allowed attempt's outcome is
returned as is (its error is re-raised). -/
def retryAttempts (f : Nat → Except String Unit) : Nat → Nat → Except String Unit
  | 0, n => f n
  | 1, n => f n
  | fuel + 2, n =>
    match f n with
    | Except.ok v => Except.ok v
    | Except.error _ => retryAttempts f (fuel + 1) (n + 1)

/-- _embed_chunk under retry(stop=stop_after_attempt(5)): attempts are
numbered 1 to 5. -/
def embed_chunk_retry (f : Nat → Except String Unit) : Except String Unit :=
  retryAttempts f 5 1

theorem retryAttempts_congr (f g : Nat → Except String Unit) :
    ∀ fuel n, (∀ m, n ≤ m → m < n + max fuel 1 → f m = g m) →
      retryAttempts f fuel n = retryAttempts g fuel n
  | 0, n, h => by
      show f n = g n
      exact h n le_rfl (by omega)
  | 1, n, h => by
      show f n = g n
      exact h n le_rfl (by omega)
  | fuel + 2, n, h => by
      show (match f n with
        | Except.ok v => Except.ok v
        | Except.error _ => retryAttempts f (fuel + 1) (n + 1))
        = (match g n with
        | Except.ok v => Except.ok v
        | Except.error _ => retryAttempts g (fuel + 1) (n + 1))
      rw [h n le_rfl (by omega)]
      cases g n with
      | ok v => rfl
      | error e =>
        exact retryAttempts_congr f g (fuel + 1) (n + 1)
          (fun m h1 h2 => h m (by omega) (by omega))

/-- Claim C6: the wait strategy returns X + 5 seconds when the outcome is a
rate-limit error whose message contains "retry after X seconds"; any other
failure waits the exponential backoff clamped into [4, 60]; and the
embedding call makes at most 5 attempts, its result depending only on
attempts 1 to 5, with the fifth error re-raised after five failures. -/
theorem embedding_retry_policy (st : RetryState) (x : Nat)
    (f g : Nat → Except String Unit) :
    (st.outcome.isRateLimit = true → findRetryAfter st.outcome.message = some x →
      wait_azure_rate_limit_call st = x + 5) ∧
    ((st.outcome.isRateLimit = false ∨ findRetryAfter st.outcome.message = none) →
      wait_azure_rate_limit_call st
          = max 4 (min (2 ^ (st.attempt_number - 1)) 60) ∧
        4 ≤ wait_azure_rate_limit_call st ∧ wait_azure_rate_limit_call st ≤ 60) ∧
    ((∀ n, 1 ≤ n → n ≤ 5 → f n = g n) → embed_chunk_retry f = embed_chunk_retry g) ∧
    ((∀ n, 1 ≤ n → n ≤ 5 → ∃ err, f n = Except.error err) →
      embed_chunk_retry f = f 5) := by
  refine ⟨?_, ?_, ?_, ?_⟩
  · intro hrl hfind
    rw [wait_azure_rate_limit_call, if_pos hrl, hfind]
  · intro hother
    have hbase : wait_azure_rate_limit_call st
        = max 4 (min (2 ^ (st.attempt_number - 1)) 60) := by
      rcases hother with hrl | hfind
      · rw [wait_azure_rate_limit_call, if_neg (by simp [hrl])]
        simp [wait_exponential_call]
      · rw [wait_azure_rate_limit_call]
        by_cases hrl : st.outcome.isRateLimit
        · rw [if_pos hrl, hfind]
          simp [wait_exponential_call]
        · rw [if_neg hrl]
          simp [wait_exponential_call]
    refine ⟨hbase, ?_, ?_⟩
    · rw [hbase]; exact le_max_left _ _
    · rw [hbase]
      exact max_le (by norm_num) (min_le_right _ _)
  · intro hagree
    exact retryAttempts_congr f g 5 1 (fun m h1 h2 => hagree m h1 (by omega))
  · intro hfail
    obtain ⟨e1, h1⟩ := hfail 1 (by omega) (by omega)
    obtain ⟨e2, h2⟩ := hfail 2 (by omega) (by omega)
    obtain ⟨e3, h3⟩ := hfail 3 (by omega) (by omega)
    obtain ⟨e4, h4⟩ := hfail 4 (by omega) (by omega)
    show retryAttempts f 5 1 = f 5
    rw [show retryAttempts f 5 1 = (match f 1 with
        | Except.ok v => Except.ok v
        | Except.error _ => retryAttempts f 4 2) from rfl, h1]
    show retryAttempts f 4 2 = f 5
    rw [show retryAttempts f 4 2 = (match f 2 with
        | Except.ok v => Except.ok v
        | Except.error _ => retryAttempts f 3 3) from rfl, h2]
    show retryAttempts f 3 3 = f 5
    rw [show retryAttempts f 3 3 = (match f 3 with
        | Except.ok v => Except.ok v
        | Except.error _ => retryAttempts f 2 4) from rfl, h3]
    show retryAttempts f 2 4 = f 5
    rw [show retryAttempts f 2 4 = (match f 4 with
        | Except.ok v => Except.ok v
        | Except.error _ => retryAttempts f 1 5) from rfl, h4]
    show retryAttempts f 1 5 = f 5
    rfl

/-- Witness for claim C6: the hint "Retry after 7 seconds" yields a 12 s
wait; a plain failure at attempt 3 waits 4 s; a call failing at every
attempt returns the fifth error. -/
theorem embedding_retry_policy_witness :
    wait_azure_rate_limit_call
        { attempt_number := 2,
          outcome := { isRateLimit := true,
                       message := "Rate limit is exceeded. Retry after 7 seconds." } }
      = 12 ∧
    wait_azure_rate_limit_call
        { attempt_number := 3,
          outcome := { isRateLimit := false, message := "server error" } }
      = 4 ∧
    embed_chunk_retry (fun n => Except.error ("boom " ++ toString n))
      = Except.error "boom 5" := by
  refine ⟨?_, ?_, ?_⟩
  · have h := (embedding_retry_policy
      { attempt_number := 2,
        outcome := { isRateLimit := true,
                     message := "Rate limit is exceeded. Retry after 7 seconds." } }
      7 (fun _ => Except.ok ()) (fun _ => Except.ok ())).1 rfl (by rfl)
    rw [h]
  · have h := ((embedding_retry_policy
      { attempt_number := 3,
        outcome := { isRateLimit := false, message := "server error" } }
      0 (fun _ => Except.ok ()) (fun _ => Except.ok ())).2.1 (Or.inl rfl)).1
    rw [h]
    decide
  · have h := (embedding_retry_policy
      { attempt_number := 1, outcome := { isRateLimit := false, message := "" } }
      0 (fun n => Except.error ("boom " ++ toString n)) (fun _ => Except.ok ())).2.2.2
      (fun n _ _ => ⟨"boom " ++ toString n, rfl⟩)
    rw [h]
    rfl

/-! ## Query handler: mcp_server/qdrant_query_handler.py,
search_parliamentary_questions (reassembly stage)

The vector store returns groups of stored chunk payloads grouped by the
payload key "id"; the handler reassembles each group and orders the
results.  A stored payload is modelled with the fields the handler reads;
parse_date is an external date-parsing helper passed as a parameter.
Python sorted() on (chunk_id, text) pairs compares tuples
lexicographically; max(key=...) returns the first maximal element. -/

/-- Stable insertion step: a new element goes after every element that may
stay before it, so elements arriving later sort after equal earlier ones —
the stability contract of Python sorted(). -/
def insertSorted (le : α → α → Bool) (x : α) : List α → List α
  | [] => [x]
  | y :: ys => if le y x then y :: insertSorted le x ys else x :: y :: ys

/-- Python sorted(): a stable sort, modelled as left-to-right stable
insertion (any two stable sorts under one total preorder agree). -/
def pySorted (le : α → α → Bool) (l : List α) : List α :=
  l.foldl (fun acc x => insertSorted le x acc) []

structure PQHit where
  id : Int
  chunk_id : String
  text : String
  chunk_type : String
  created_at : String
  uin : Option String
  dateTabled : Option String
  dateAnswered : Option String
  answeringBodyName : Option String
  askingMember : Option JVal
  answeringMember : Option JVal

structure PQResult where
  question_text : String
  answer_text : String
  chunk_type : String
  askingMember : Option JVal
  answeringMember : Option JVal
  dateTabled : Option String
  dateAnswered : Option String
  answeringBodyName : Option String
  question_url : String
  created_at : String

/-- Python tuple comparison (chunk_id, text) ordered lexicographically. -/
def tupleLe (a b : String × String) : Bool :=
  decide (a.1 < b.1) || (a.1 == b.1 && decide (a.2 ≤ b.2))

/-- Python max(payloads, key=created_at): first maximal element; raises on
an empty list (modelled as none). -/
def pyMaxByCreated : List PQHit → Option PQHit
  | [] => none
  | x :: xs => some (xs.foldl (fun b y => if b.created_at < y.created_at then y else b) x)

/-- The per-group body of search_parliamentary_questions: collect answer
and question (chunk_id, text) pairs, sort each and join with newlines,
take the payload with the latest created_at, and build the result dict
paired with its created_at sort key. -/
def assembleGroup (parse_date : Option String → Option String) (payloads : List PQHit) :
    Option (String × PQResult) :=
  match pyMaxByCreated payloads with
  | none => none
  | some payload =>
    let answer_chunks := (payloads.filter (fun hit => hit.chunk_type == "answer")).map
      (fun hit => (hit.chunk_id, hit.text))
    let question_chunks := (payloads.filter (fun hit => hit.chunk_type == "question")).map
      (fun hit => (hit.chunk_id, hit.text))
    let answer_text := String.intercalate "\n" ((pySorted tupleLe answer_chunks).map Prod.snd)
    let question_text :=
      String.intercalate "\n" ((pySorted tupleLe question_chunks).map Prod.snd)
    some (payload.created_at,
      { question_text := question_text
        answer_text := answer_text
        chunk_type := payload.chunk_type
        askingMember := payload.askingMember
        answeringMember := payload.answeringMember
        dateTabled := parse_date payload.dateTabled
        dateAnswered := parse_date payload.dateAnswered
        answeringBodyName := payload.answeringBodyName
        question_url :=
          "https://questions-statements.parliament.uk/written-questions/detail/"
            ++ pyStrOpt (parse_date payload.dateTabled) ++ "/" ++ pyStrOpt payload.uin
        created_at := payload.created_at })

/-- The tail of search_parliamentary_questions: assemble every group, then
return the result dicts sorted most-recently-created first
(sorted(results, key=first component, reverse=True), which is stable).
A vector store never returns an empty group; on one, CPython would raise
inside max(), modelled by dropping the group (filterMap). -/
def search_pq_assemble (parse_date : Option String → Option String)
    (groups : List (List PQHit)) : List PQResult :=
  let results := groups.filterMap (assembleGroup parse_date)
  (pySorted (fun a b => decide (b.1 ≤ a.1)) results).map Prod.snd

theorem tupleLe_trans (a b c : String × String)
    (h1 : tupleLe a b = true) (h2 : tupleLe b c = true) : tupleLe a c = true := by
  simp only [tupleLe, Bool.or_eq_true, Bool.and_eq_true, decide_eq_true_eq,
    beq_iff_eq] at *
  rcases h1 with h1 | ⟨h1e, h1le⟩
  · rcases h2 with h2 | ⟨h2e, h2le⟩
    · exact Or.inl (lt_trans h1 h2)
    · exact Or.inl (lt_of_lt_of_le h1 (le_of_eq h2e))
  · rcases h2 with h2 | ⟨h2e, h2le⟩
    · exact Or.inl (lt_of_le_of_lt (le_of_eq h1e) h2)
    · exact Or.inr ⟨h1e.trans h2e, le_trans h1le h2le⟩

theorem tupleLe_total (a b : String × String) : (tupleLe a b || tupleLe b a) = true := by
  simp only [tupleLe, Bool.or_eq_true, Bool.and_eq_true, decide_eq_true_eq, beq_iff_eq]
  rcases lt_trichotomy a.1 b.1 with h | h | h
  · exact Or.inl (Or.inl h)
  · rcases le_total a.2 b.2 with h2 | h2
    · exact Or.inl (Or.inr ⟨h, h2⟩)
    · exact Or.inr (Or.inr ⟨h.symm, h2⟩)
  · exact Or.inr (Or.inl h)

theorem descLe_trans (a b c : String × PQResult)
    (h1 : decide (b.1 ≤ a.1) = true) (h2 : decide (c.1 ≤ b.1) = true) :
    decide (c.1 ≤ a.1) = true := by
  simp only [decide_eq_true_eq] at *
  exact le_trans h2 h1

theorem descLe_total (a b : String × PQResult) :
    (decide (b.1 ≤ a.1) || decide (a.1 ≤ b.1)) = true := by
  simp only [Bool.or_eq_true, decide_eq_true_eq]
  exact (le_total b.1 a.1)

theorem insertSorted_perm (le : α → α → Bool) (x : α) (l : List α) :
    (insertSorted le x l).Perm (x :: l) := by
  induction l with
  | nil => exact List.Perm.refl _
  | cons y ys ih =>
    rw [insertSorted]
    by_cases h : le y x = true
    · rw [if_pos h]
      exact (ih.cons y).trans (List.Perm.swap x y ys)
    · rw [if_neg h]

theorem pySorted_foldl_perm (le : α → α → Bool) :
    ∀ (l acc : List α),
      (l.foldl (fun acc2 x => insertSorted le x acc2) acc).Perm (acc ++ l)
  | [], acc => by simp
  | x :: xs, acc => by
      rw [List.foldl_cons]
      refine (pySorted_foldl_perm le xs (insertSorted le x acc)).trans ?_
      refine ((insertSorted_perm le x acc).append_right xs).trans ?_
      exact List.perm_middle.symm

theorem pySorted_perm (le : α → α → Bool) (l : List α) : (pySorted le l).Perm l := by
  simpa using pySorted_foldl_perm le l []

theorem insertSorted_pairwise (le : α → α → Bool)
    (htrans : ∀ a b c, le a b = true → le b c = true → le a c = true)
    (htotal : ∀ a b, (le a b || le b a) = true)
    (x : α) (l : List α) (h : l.Pairwise (fun a b => le a b = true)) :
    (insertSorted le x l).Pairwise (fun a b => le a b = true) := by
  induction l with
  | nil => simp [insertSorted]
  | cons y ys ih =>
    rw [insertSorted]
    rcases List.pairwise_cons.mp h with ⟨hy, hys⟩
    by_cases hyx : le y x = true
    · rw [if_pos hyx]
      refine List.pairwise_cons.mpr ⟨?_, ih hys⟩
      intro z hz
      have hz2 : z ∈ x :: ys := ((insertSorted_perm le x ys).mem_iff).mp hz
      rcases List.mem_cons.mp hz2 with rfl | hz3
      · exact hyx
      · exact hy z hz3
    · rw [if_neg hyx]
      have hxy : le x y = true := by
        have := htotal y x
        rw [Bool.or_eq_true] at this
        rcases this with h1 | h1
        · exact absurd h1 hyx
        · exact h1
      refine List.pairwise_cons.mpr ⟨?_, h⟩
      intro z hz
      rcases List.mem_cons.mp hz with rfl | hz2
      · exact hxy
      · exact htrans x y z hxy (hy z hz2)

theorem pySorted_pairwise (le : α → α → Bool)
    (htrans : ∀ a b c, le a b = true → le b c = true → le a c = true)
    (htotal : ∀ a b, (le a b || le b a) = true) (l : List α) :
    (pySorted le l).Pairwise (fun a b => le a b = true) := by
  have haux : ∀ (l2 acc : List α), acc.Pairwise (fun a b => le a b = true) →
      (l2.foldl (fun acc2 x => insertSorted le x acc2) acc).Pairwise
        (fun a b => le a b = true) := by
    intro l2
    induction l2 with
    | nil => intro acc hacc; exact hacc
    | cons x xs ih =>
      intro acc hacc
      rw [List.foldl_cons]
      exact ih _ (insertSorted_pairwise le htrans htotal x acc hacc)
  exact haux l [] (by simp)

theorem pyMaxByCreated_ne_nil (g : List PQHit) (h : g ≠ []) :
    ∃ payload, pyMaxByCreated g = some payload := by
  cases g with
  | nil => exact absurd rfl h
  | cons x xs => exact ⟨_, rfl⟩

theorem assembleGroup_some (parse_date : Option String → Option String)
    (payloads : List PQHit) (payload : PQHit)
    (hmax : pyMaxByCreated payloads = some payload) :
    assembleGroup parse_date payloads =
      some (payload.created_at,
        { question_text := String.intercalate "\n"
            ((pySorted tupleLe ((payloads.filter (fun hit => hit.chunk_type == "question")).map
              (fun hit => (hit.chunk_id, hit.text)))).map Prod.snd)
          answer_text := String.intercalate "\n"
            ((pySorted tupleLe ((payloads.filter (fun hit => hit.chunk_type == "answer")).map
              (fun hit => (hit.chunk_id, hit.text)))).map Prod.snd)
          chunk_type := payload.chunk_type
          askingMember := payload.askingMember
          answeringMember := payload.answeringMember
          dateTabled := parse_date payload.dateTabled
          dateAnswered := parse_date payload.dateAnswered
          answeringBodyName := payload.answeringBodyName
          question_url :=
            "https://questions-statements.parliament.uk/written-questions/detail/"
              ++ pyStrOpt (parse_date payload.dateTabled) ++ "/" ++ pyStrOpt payload.uin
          created_at := payload.created_at }) := by
  unfold assembleGroup
  rw [hmax]

theorem length_filterMap_all_some {α β : Type} (f : α → Option β) :
    ∀ l : List α, (∀ a ∈ l, (f a).isSome) → (l.filterMap f).length = l.length := by
  intro l
  induction l with
  | nil => intro _; rfl
  | cons a rest ih =>
    intro h
    rw [List.filterMap_cons]
    rcases hf : f a with _ | b
    · have := h a (by simp)
      rw [hf] at this
      cases this
    · simp only [List.length_cons]
      rw [ih (fun x hx => h x (by simp [hx]))]

theorem tupleLe_fst_le (a b : String × String) (h : tupleLe a b = true) : a.1 ≤ b.1 := by
  simp only [tupleLe, Bool.or_eq_true, Bool.and_eq_true, decide_eq_true_eq,
    beq_iff_eq] at h
  rcases h with h | ⟨h, _⟩
  · exact le_of_lt h
  · exact le_of_eq h

/-- Claim C8: search_parliamentary_questions reassembles each group of
stored chunks (grouped by the payload key id): per group the question
chunks and the answer chunks are sorted by chunk_id and joined with
newlines into question_text and answer_text, and the returned list holds
one result per group ordered most-recently-created first (non-increasing
created_at). -/
theorem search_pq_reassembly (parse_date : Option String → Option String)
    (groups : List (List PQHit)) (hne : ∀ g ∈ groups, g ≠ []) :
    (search_pq_assemble parse_date groups).length = groups.length ∧
    (search_pq_assemble parse_date groups).Perm
      (groups.filterMap (fun g => (assembleGroup parse_date g).map Prod.snd)) ∧
    List.Pairwise (fun a b : PQResult => b.created_at ≤ a.created_at)
      (search_pq_assemble parse_date groups) ∧
    (∀ g ∈ groups, ∀ t r, assembleGroup parse_date g = some (t, r) →
      (∃ q : List (String × String),
        q.Perm ((g.filter (fun hit => hit.chunk_type == "question")).map
          (fun hit => (hit.chunk_id, hit.text))) ∧
        List.Pairwise (fun a b : String × String => a.1 ≤ b.1) q ∧
        r.question_text = String.intercalate "\n" (q.map Prod.snd)) ∧
      (∃ aq : List (String × String),
        aq.Perm ((g.filter (fun hit => hit.chunk_type == "answer")).map
          (fun hit => (hit.chunk_id, hit.text))) ∧
        List.Pairwise (fun a b : String × String => a.1 ≤ b.1) aq ∧
        r.answer_text = String.intercalate "\n" (aq.map Prod.snd))) := by
  have hkey : ∀ x ∈ groups.filterMap (assembleGroup parse_date), x.1 = x.2.created_at := by
    intro x hx
    obtain ⟨g, hg, hsome⟩ := List.mem_filterMap.mp hx
    rcases hm : pyMaxByCreated g with _ | payload
    · unfold assembleGroup at hsome
      rw [hm] at hsome
      cases hsome
    · rw [assembleGroup_some parse_date g payload hm] at hsome
      cases hsome
      rfl
  refine ⟨?_, ?_, ?_, ?_⟩
  · show ((pySorted (fun a b => decide (b.1 ≤ a.1))
        (groups.filterMap (assembleGroup parse_date))).map Prod.snd).length = groups.length
    rw [List.length_map, (pySorted_perm _ _).length_eq]
    apply length_filterMap_all_some
    intro g hg
    obtain ⟨payload, hmax⟩ := pyMaxByCreated_ne_nil g (hne g hg)
    rw [assembleGroup_some parse_date g payload hmax]
    rfl
  · show ((pySorted (fun a b => decide (b.1 ≤ a.1))
        (groups.filterMap (assembleGroup parse_date))).map Prod.snd).Perm _
    have h1 := (pySorted_perm (fun a b : String × PQResult => decide (b.1 ≤ a.1))
      (groups.filterMap (assembleGroup parse_date))).map Prod.snd
    rw [List.map_filterMap] at h1
    exact h1
  · show List.Pairwise _ ((pySorted (fun a b => decide (b.1 ≤ a.1))
        (groups.filterMap (assembleGroup parse_date))).map Prod.snd)
    rw [List.pairwise_map]
    have hsorted := pySorted_pairwise (fun a b : String × PQResult => decide (b.1 ≤ a.1))
      descLe_trans descLe_total (groups.filterMap (assembleGroup parse_date))
    apply List.Pairwise.imp_of_mem ?_ hsorted
    intro a b ha hb hr
    have hka := hkey a ((pySorted_perm _ _).mem_iff.mp ha)
    have hkb := hkey b ((pySorted_perm _ _).mem_iff.mp hb)
    simp only [decide_eq_true_eq] at hr
    rw [← hka, ← hkb]
    exact hr
  · intro g hg t r hsome
    obtain ⟨payload, hmax⟩ := pyMaxByCreated_ne_nil g (hne g hg)
    rw [assembleGroup_some parse_date g payload hmax] at hsome
    have heq := Option.some.inj hsome
    have hre : _ = r := (Prod.ext_iff.mp heq).2
    constructor
    · refine ⟨pySorted tupleLe ((g.filter (fun hit => hit.chunk_type == "question")).map
          (fun hit => (hit.chunk_id, hit.text))), pySorted_perm _ _, ?_, ?_⟩
      · exact (pySorted_pairwise tupleLe tupleLe_trans tupleLe_total _).imp
          (fun h => tupleLe_fst_le _ _ h)
      · rw [← hre]
    · refine ⟨pySorted tupleLe ((g.filter (fun hit => hit.chunk_type == "answer")).map
          (fun hit => (hit.chunk_id, hit.text))), pySorted_perm _ _, ?_, ?_⟩
      · exact (pySorted_pairwise tupleLe tupleLe_trans tupleLe_total _).imp
          (fun h => tupleLe_fst_le _ _ h)
      · rw [← hre]

/-- Stored chunks for the C8 witness: question chunks of PQ 7 arrive out of
order, its answer chunk carries the latest created_at; PQ 8 is older. -/
def hitQ0 : PQHit :=
  { id := 7, chunk_id := "pq_7_chunk_0", text := "Qa", chunk_type := "question",
    created_at := "2024-02-01T00:00:00", uin := some "U7",
    dateTabled := some "2024-01-01", dateAnswered := none,
    answeringBodyName := none, askingMember := none, answeringMember := none }

def hitQ1 : PQHit :=
  { hitQ0 with chunk_id := "pq_7_chunk_1", text := "Qb" }

def hitA2 : PQHit :=
  { hitQ0 with chunk_id := "pq_7_chunk_2", text := "Ans", chunk_type := "answer",
               created_at := "2024-02-02T00:00:00" }

def hitOld8 : PQHit :=
  { id := 8, chunk_id := "pq_8_chunk_0", text := "Older", chunk_type := "question",
    created_at := "2024-01-15T00:00:00", uin := some "U8",
    dateTabled := some "2023-12-01", dateAnswered := none,
    answeringBodyName := none, askingMember := none, answeringMember := none }

def pqWitnessGroups : List (List PQHit) := [[hitQ1, hitA2, hitQ0], [hitOld8]]

/-- Witness for claim C8: the out-of-order question chunks of PQ 7 are
reassembled as "Qa" then "Qb", the answer text is "Ans", and the newer
question (created 2024-02-02) is returned before the older one. -/
theorem search_pq_reassembly_witness :
    (search_pq_assemble (fun d => d) pqWitnessGroups).length = 2 ∧
    (search_pq_assemble (fun d => d) pqWitnessGroups).map
        (fun r => (r.question_text, r.answer_text, r.created_at)) =
      [("Qa\nQb", "Ans", "2024-02-02T00:00:00"),
       ("Older", "", "2024-01-15T00:00:00")] := by
  have h := search_pq_reassembly (fun d => d) pqWitnessGroups
    (by intro g hg
        simp only [pqWitnessGroups, List.mem_cons, List.not_mem_nil, or_false] at hg
        rcases hg with rfl | rfl <;> simp)
  refine ⟨h.1.trans rfl, ?_⟩
  simp +decide [search_pq_assemble, assembleGroup, pySorted, insertSorted, tupleLe,
    pyMaxByCreated, pqWitnessGroups, hitQ0, hitQ1, hitA2, hitOld8, pyStrOpt,
    String.intercalate]

/-! ## Auditor: robust_loader.py, class AuditManager

check_day works from the local daily status histogram and, only when it
has to, the upstream totals.  get_api_count issues sequential GET
requests; a response is its status code plus the total field of its JSON
body (TotalResultCount for Hansard, totalResults for PQs, read with
.get(key, 0)); non-200 responses contribute nothing, and any raised
exception is caught by the surrounding try/except which returns 0.  The
HTTP fetches are parameters returning Except (error = raised exception). -/

inductive ContribType where
  | Spoken
  | Written
  | Corrections
  | Petitions
deriving DecidableEq, Repr

inductive PqDateType where
  | tabled
  | answered
deriving DecidableEq, Repr

structure ApiResp where
  status_code : Nat
  count : Nat
deriving DecidableEq, Repr

/-- AuditManager.get_api_count, hansard branch: sum TotalResultCount over
the four contribution types (each only when its response is 200); an
exception at any point falls into the except handler, which returns 0. -/
def get_api_count_hansard (fetch : ContribType → Except String ApiResp) : Nat :=
  match fetch ContribType.Spoken with
  | Except.error _ => 0
  | Except.ok r1 =>
    match fetch ContribType.Written with
    | Except.error _ => 0
    | Except.ok r2 =>
      match fetch ContribType.Corrections with
      | Except.error _ => 0
      | Except.ok r3 =>
        match fetch ContribType.Petitions with
        | Except.error _ => 0
        | Except.ok r4 =>
          (if r1.status_code = 200 then r1.count else 0) +
          (if r2.status_code = 200 then r2.count else 0) +
          (if r3.status_code = 200 then r3.count else 0) +
          (if r4.status_code = 200 then r4.count else 0)

/-- AuditManager.get_api_count, pq branch: totalResults for tabled plus
totalResults for answered (each only when 200); an exception at either
request makes the whole call return 0. -/
def get_api_count_pq (fetch : PqDateType → Except String ApiResp) : Nat :=
  match fetch PqDateType.tabled with
  | Except.error _ => 0
  | Except.ok r1 =>
    match fetch PqDateType.answered with
    | Except.error _ => 0
    | Except.ok r2 =>
      (if r1.status_code = 200 then r1.count else 0) +
      (if r2.status_code = 200 then r2.count else 0)

/-- The daily status histogram get_daily_stats returns (absent statuses
count 0). -/
structure DayStats where
  pending : Nat
  processing : Nat
  completed : Nat
  failed : Nat
deriving DecidableEq, Repr

def DayStats.total (s : DayStats) : Nat := s.pending + s.processing + s.completed + s.failed

/-- What AuditManager.check_day reports for a (date, source_type). -/
inductive AuditReport where
  | incomplete (pending failed processing total : Nat)
  | missing (api_count : Nat)
  | emptyOk
  | okAssumed
deriving DecidableEq, Repr

/-- AuditManager.check_day: the Bool records whether get_api_count was
awaited. -/
def check_day (apiCount : Unit → Nat) (stats : DayStats) : AuditReport × Bool :=
  if stats.failed > 0 ∨ stats.pending > 0 ∨ stats.processing > 0 then
    (AuditReport.incomplete stats.pending stats.failed stats.processing stats.total, false)
  else if stats.total = 0 then
    let api_count := apiCount ()
    if api_count > 0 then (AuditReport.missing api_count, true)
    else (AuditReport.emptyOk, true)
  else (AuditReport.okAssumed, false)

/-- Claim C9: with PENDING, PROCESSING or FAILED work the auditor reports
INCOMPLETE with the counts and never calls upstream; with zero local rows
it queries the upstream totals (Hansard: sum of TotalResultCount over the
four contribution types; PQ: totalResults tabled plus answered) and
reports MISSING when positive, a valid empty day when zero; with local
rows all terminal-successful it treats the day as OK without any upstream
comparison. -/
theorem auditor_check_day (stats : DayStats)
    (fetchH : ContribType → Except String ApiResp)
    (fetchP : PqDateType → Except String ApiResp) :
    ((stats.pending > 0 ∨ stats.processing > 0 ∨ stats.failed > 0) →
      ∀ apiCount : Unit → Nat, check_day apiCount stats =
        (AuditReport.incomplete stats.pending stats.failed stats.processing stats.total,
          false)) ∧
    (stats.pending = 0 → stats.processing = 0 → stats.failed = 0 → stats.total = 0 →
      ∀ apiCount : Unit → Nat,
        (apiCount () > 0 →
          check_day apiCount stats = (AuditReport.missing (apiCount ()), true)) ∧
        (apiCount () = 0 → check_day apiCount stats = (AuditReport.emptyOk, true))) ∧
    (stats.pending = 0 → stats.processing = 0 → stats.failed = 0 → stats.total > 0 →
      ∀ apiCount : Unit → Nat,
        check_day apiCount stats = (AuditReport.okAssumed, false)) ∧
    (∀ r1 r2 r3 r4,
      fetchH ContribType.Spoken = Except.ok r1 →
      fetchH ContribType.Written = Except.ok r2 →
      fetchH ContribType.Corrections = Except.ok r3 →
      fetchH ContribType.Petitions = Except.ok r4 →
      r1.status_code = 200 → r2.status_code = 200 →
      r3.status_code = 200 → r4.status_code = 200 →
      get_api_count_hansard fetchH = r1.count + r2.count + r3.count + r4.count) ∧
    (∀ r1 r2,
      fetchP PqDateType.tabled = Except.ok r1 →
      fetchP PqDateType.answered = Except.ok r2 →
      r1.status_code = 200 → r2.status_code = 200 →
      get_api_count_pq fetchP = r1.count + r2.count) := by
  refine ⟨?_, ?_, ?_, ?_, ?_⟩
  · intro hwork apiCount
    have hcond : stats.failed > 0 ∨ stats.pending > 0 ∨ stats.processing > 0 := by tauto
    rw [check_day, if_pos hcond]
  · intro hp hpr hf htot apiCount
    have hcond : ¬ (stats.failed > 0 ∨ stats.pending > 0 ∨ stats.processing > 0) := by omega
    constructor
    · intro hapi
      rw [check_day, if_neg hcond, if_pos htot]
      show (if apiCount () > 0 then _ else _) = _
      rw [if_pos hapi]
    · intro hapi
      rw [check_day, if_neg hcond, if_pos htot]
      show (if apiCount () > 0 then _ else _) = _
      rw [if_neg (by omega)]
  · intro hp hpr hf htot apiCount
    have hcond : ¬ (stats.failed > 0 ∨ stats.pending > 0 ∨ stats.processing > 0) := by omega
    rw [check_day, if_neg hcond, if_neg (by omega)]
  · intro r1 r2 r3 r4 h1 h2 h3 h4 s1 s2 s3 s4
    rw [get_api_count_hansard, h1, h2, h3, h4]
    simp [s1, s2, s3, s4]
  · intro r1 r2 h1 h2 s1 s2
    rw [get_api_count_pq, h1, h2]
    simp [s1, s2]

/-- Witness for claim C9: a day with one FAILED row is INCOMPLETE without
an upstream call; an empty day with a healthy upstream totalling 0 is a
valid empty day, with positive totals MISSING; a fully COMPLETED day is
OK without an upstream call; and the upstream sums come out right. -/
def hFetchOk : ContribType → Except String ApiResp
  | ContribType.Spoken => Except.ok { status_code := 200, count := 10 }
  | ContribType.Written => Except.ok { status_code := 200, count := 20 }
  | ContribType.Corrections => Except.ok { status_code := 200, count := 1 }
  | ContribType.Petitions => Except.ok { status_code := 200, count := 2 }

def pFetchOk : PqDateType → Except String ApiResp
  | PqDateType.tabled => Except.ok { status_code := 200, count := 4 }
  | PqDateType.answered => Except.ok { status_code := 200, count := 6 }

theorem auditor_check_day_witness :
    check_day (fun _ => 7) { pending := 0, processing := 0, completed := 3, failed := 1 }
      = (AuditReport.incomplete 0 1 0 4, false) ∧
    check_day (fun _ => 0) { pending := 0, processing := 0, completed := 0, failed := 0 }
      = (AuditReport.emptyOk, true) ∧
    check_day (fun _ => 7) { pending := 0, processing := 0, completed := 0, failed := 0 }
      = (AuditReport.missing 7, true) ∧
    check_day (fun _ => 7) { pending := 0, processing := 0, completed := 3, failed := 0 }
      = (AuditReport.okAssumed, false) ∧
    get_api_count_hansard hFetchOk = 33 ∧
    get_api_count_pq pFetchOk = 10 := by
  obtain ⟨hinc, -, -, hsum, hsump⟩ := auditor_check_day
    { pending := 0, processing := 0, completed := 3, failed := 1 } hFetchOk pFetchOk
  obtain ⟨-, hempty0, -, -, -⟩ := auditor_check_day
    { pending := 0, processing := 0, completed := 0, failed := 0 } hFetchOk pFetchOk
  obtain ⟨-, -, hok3, -, -⟩ := auditor_check_day
    { pending := 0, processing := 0, completed := 3, failed := 0 } hFetchOk pFetchOk
  refine ⟨hinc (by decide) (fun _ => 7), ?_, ?_, hok3 rfl rfl rfl (by decide) (fun _ => 7),
    hsum _ _ _ _ rfl rfl rfl rfl rfl rfl rfl rfl, hsump _ _ rfl rfl rfl rfl⟩
  · exact (hempty0 rfl rfl rfl rfl (fun _ => 0)).2 rfl
  · exact (hempty0 rfl rfl rfl rfl (fun _ => 7)).1 (by decide)

/-- Claim C10 (implicit behaviour): when any upstream totals request
raises, get_api_count returns 0 (the try/except swallows the error, even
discarding totals already accumulated); hence a date with zero local rows
whose upstream is unreachable is reported exactly like a genuinely empty
day (valid empty day, not MISSING and not an error). -/
theorem auditor_upstream_failure_indistinguishable (stats : DayStats)
    (fetchH : ContribType → Except String ApiResp)
    (fetchP : PqDateType → Except String ApiResp)
    (hp : stats.pending = 0) (hpr : stats.processing = 0) (hf : stats.failed = 0)
    (htot : stats.total = 0)
    (hHerr : ∃ t e, fetchH t = Except.error e)
    (hPerr : ∃ t e, fetchP t = Except.error e) :
    get_api_count_hansard fetchH = 0 ∧
    get_api_count_pq fetchP = 0 ∧
    check_day (fun _ => get_api_count_hansard fetchH) stats = (AuditReport.emptyOk, true) ∧
    check_day (fun _ => get_api_count_pq fetchP) stats = (AuditReport.emptyOk, true) ∧
    check_day (fun _ => get_api_count_hansard fetchH) stats = check_day (fun _ => 0) stats ∧
    check_day (fun _ => get_api_count_pq fetchP) stats = check_day (fun _ => 0) stats := by
  have hH : get_api_count_hansard fetchH = 0 := by
    obtain ⟨t, e, ht⟩ := hHerr
    cases t
    · rw [get_api_count_hansard, ht]
    · rcases h1 : fetchH ContribType.Spoken with e1 | r1
      · rw [get_api_count_hansard, h1]
      · rw [get_api_count_hansard, h1, ht]
    · rcases h1 : fetchH ContribType.Spoken with e1 | r1
      · rw [get_api_count_hansard, h1]
      · rcases h2 : fetchH ContribType.Written with e2 | r2
        · rw [get_api_count_hansard, h1, h2]
        · rw [get_api_count_hansard, h1, h2, ht]
    · rcases h1 : fetchH ContribType.Spoken with e1 | r1
      · rw [get_api_count_hansard, h1]
      · rcases h2 : fetchH ContribType.Written with e2 | r2
        · rw [get_api_count_hansard, h1, h2]
        · rcases h3 : fetchH ContribType.Corrections with e3 | r3
          · rw [get_api_count_hansard, h1, h2, h3]
          · rw [get_api_count_hansard, h1, h2, h3, ht]
  have hP : get_api_count_pq fetchP = 0 := by
    obtain ⟨t, e, ht⟩ := hPerr
    cases t
    · rw [get_api_count_pq, ht]
    · rcases h1 : fetchP PqDateType.tabled with e1 | r1
      · rw [get_api_count_pq, h1]
      · rw [get_api_count_pq, h1, ht]
  have hday : ∀ apiCount : Unit → Nat, apiCount () = 0 →
      check_day apiCount stats = (AuditReport.emptyOk, true) := by
    intro apiCount hz
    rw [check_day, if_neg (by omega), if_pos htot]
    show (if apiCount () > 0 then _ else _) = _
    rw [if_neg (by omega)]
  have hd1 := hday (fun _ => get_api_count_hansard fetchH) hH
  have hd2 := hday (fun _ => get_api_count_pq fetchP) hP
  have hd0 := hday (fun _ => 0) rfl
  exact ⟨hH, hP, hd1, hd2, hd1.trans hd0.symm, hd2.trans hd0.symm⟩

/-- Witness for claim C10: an upstream where the Corrections page raises
(despite Spoken having returned 100 results) audits exactly like an empty
upstream: the empty day is reported as valid. -/
def hFetchBroken : ContribType → Except String ApiResp
  | ContribType.Spoken => Except.ok { status_code := 200, count := 100 }
  | ContribType.Written => Except.ok { status_code := 200, count := 5 }
  | ContribType.Corrections => Except.error "ConnectTimeout"
  | ContribType.Petitions => Except.ok { status_code := 200, count := 2 }

def pFetchBroken : PqDateType → Except String ApiResp
  | PqDateType.tabled => Except.error "ConnectTimeout"
  | PqDateType.answered => Except.ok { status_code := 200, count := 9 }

theorem auditor_upstream_failure_indistinguishable_witness :
    get_api_count_hansard hFetchBroken = 0 ∧
    get_api_count_pq pFetchBroken = 0 ∧
    check_day (fun _ => get_api_count_hansard hFetchBroken)
        { pending := 0, processing := 0, completed := 0, failed := 0 }
      = (AuditReport.emptyOk, true) ∧
    check_day (fun _ => get_api_count_hansard hFetchBroken)
        { pending := 0, processing := 0, completed := 0, failed := 0 }
      = check_day (fun _ => 0)
          { pending := 0, processing := 0, completed := 0, failed := 0 } := by
  obtain ⟨h1, h2, h3, -, h5, -⟩ := auditor_upstream_failure_indistinguishable
    { pending := 0, processing := 0, completed := 0, failed := 0 }
    hFetchBroken pFetchBroken rfl rfl rfl rfl
    ⟨ContribType.Corrections, "ConnectTimeout", rfl⟩
    ⟨PqDateType.tabled, "ConnectTimeout", rfl⟩
  exact ⟨h1, h2, h3, h5⟩
